import Mathlib

/-!
Verification of the Kali compiler core (crates `kali-type`, `kali-ast`,
`kali-parse`) against its specification.

The development shallowly embeds the relevant Rust source files:

* `crates/kali-type/src/lib.rs`    — the semantic type lattice `Type`;
* `crates/kali-type/src/infer.rs`  — the inference `Context` and
  `TypeInferenceError` (with `combine`);
* `crates/kali-type/src/unify.rs`  — `Unify for Type`;
* `crates/kali-type/src/iter.rs`   — `fold_unify` / `map_infer`;
* `crates/kali-ast/src/**`         — the AST and its `Typed` impls;
* `crates/kali-type/src/engine.rs` — the rewriter-based inference engine;
* `crates/kali-parse/src/expr.rs` and `common.rs` — the layered
  expression parser;
* `crates/kali-parse/src/lexer.rs` — the hand-written indentation lexer.

Conventions used throughout the embedding:

* Rust `&mut Context` methods are embedded in state-passing style: a
  function receives a `Ctx` and returns the resulting `Ctx` alongside its
  value, so that frame properties are statable.  `unify` takes `&Context`
  (it cannot mutate), and the embedding makes that a theorem rather than a
  typing assumption by threading the context through it as well.
* Rust `HashMap` values used only through `insert`/`get` are embedded as
  association lists where insertion prepends and lookup takes the first
  match; the two are observationally equal for those two operations.
* Functions whose recursion is not structural in the source (unification
  may chase context bindings, the parser and lexer loop) take an explicit
  fuel argument; exhausted fuel is the distinguished `noFuel` outcome,
  mirroring non-termination of the source.  Rust panics (`unwrap`,
  `todo!`) are the distinguished `crashed` outcome.
* Source spans never influence any modeled operation, so node metadata is
  embedded without the span component.
-/

namespace Kali

/-- Constant types, from `kali-type/src/lib.rs` (`enum Constant`). -/
inductive Constant where
  | integer
  | natural
  | float
  | bool
  | string
  | unit
deriving DecidableEq

/-- The semantic type lattice, from `kali-type/src/lib.rs` (`enum Type`).
`Record` is a `BTreeMap<String, Type>` in the source; it is embedded as an
association list whose order is the map's key-sorted iteration order. -/
inductive Ty where
  | constant (c : Constant)
  | array (t : Ty)
  | tuple (ts : List Ty)
  | record (fields : List (String × Ty))
  | parameterized (name : String) (args : List Ty)
  | lambda (params : List Ty) (ret : Ty)
  | infer (id : Nat)
  | never
  | error

mutual

/-- The source's `derive(PartialEq)` structural equality on `Type`
(`BTreeMap` equality compares the key-sorted field sequences). -/
def Ty.beq : Ty → Ty → Bool
  | .constant a, .constant b => a == b
  | .array a, .array b => Ty.beq a b
  | .tuple a, .tuple b => Ty.beqList a b
  | .record a, .record b => Ty.beqFields a b
  | .parameterized n a, .parameterized m b => n == m && Ty.beqList a b
  | .lambda p r, .lambda q s => Ty.beqList p q && Ty.beq r s
  | .infer i, .infer j => i == j
  | .never, .never => true
  | .error, .error => true
  | _, _ => false

/-- Element-wise equality of type lists. -/
def Ty.beqList : List Ty → List Ty → Bool
  | [], [] => true
  | a :: as', b :: bs' => Ty.beq a b && Ty.beqList as' bs'
  | _, _ => false

/-- Element-wise equality of record field lists. -/
def Ty.beqFields : List (String × Ty) → List (String × Ty) → Bool
  | [], [] => true
  | (an, at') :: as', (bn, bt) :: bs' => an == bn && Ty.beq at' bt && Ty.beqFields as' bs'
  | _, _ => false

end

instance : BEq Ty := ⟨Ty.beq⟩

/-- Whether a type is an inference variable. -/
def Ty.isInfer : Ty → Bool
  | .infer _ => true
  | _ => false

/-- `derive(Debug)` rendering of `Constant`, used in unification error
messages. -/
def Constant.debugRepr : Constant → String
  | .integer => "Integer"
  | .natural => "Natural"
  | .float => "Float"
  | .bool => "Bool"
  | .string => "String"
  | .unit => "Unit"

mutual

/-- `derive(Debug)` rendering of `Type`, used by the source's
`format!("{:?} != {:?}", x, y)` in the catch-all unification arm. -/
def Ty.debugRepr : Ty → String
  | .constant c => "Constant(" ++ c.debugRepr ++ ")"
  | .array t => "Array(" ++ t.debugRepr ++ ")"
  | .tuple ts => "Tuple([" ++ Ty.debugReprList ts ++ "])"
  | .record fields => "Record(\x7b" ++ Ty.debugReprFields fields ++ "\x7d)"
  | .parameterized n args =>
      "Parameterized(\"" ++ n ++ "\", [" ++ Ty.debugReprList args ++ "])"
  | .lambda ps ret => "Lambda([" ++ Ty.debugReprList ps ++ "], " ++ ret.debugRepr ++ ")"
  | .infer i => "Infer(" ++ toString i ++ ")"
  | .never => "Never"
  | .error => "Error"

/-- Comma-separated `Debug` rendering of a list of types. -/
def Ty.debugReprList : List Ty → String
  | [] => ""
  | [t] => t.debugRepr
  | t :: rest => t.debugRepr ++ ", " ++ Ty.debugReprList rest

/-- Comma-separated `Debug` rendering of record fields. -/
def Ty.debugReprFields : List (String × Ty) → String
  | [] => ""
  | [(n, t)] => "\"" ++ n ++ "\": " ++ t.debugRepr
  | (n, t) :: rest => "\"" ++ n ++ "\": " ++ t.debugRepr ++ ", " ++ Ty.debugReprFields rest

end

/-- A scope, from `kali-type/src/infer.rs` (`struct Scope`): a map of named
types.  The source's `HashMap<String, Type>` is embedded as an association
list (insert prepends, lookup takes the first match).  The source also
stores a shared reference to the global counter in each scope; the
embedding keeps the counter once, in `Ctx`. -/
structure Scope where
  known : List (String × Ty)

/-- The inference context, from `kali-type/src/infer.rs` (`struct Context`):
a stack of scopes, a fresh-variable counter, and the map of solved
inference variables.  The source's scope `Vec` pushes and pops at the back
and is searched from the back; the embedding stores the stack with the
innermost scope first. -/
structure Ctx where
  scope : List Scope
  counter : Nat
  inferred : List (Nat × Ty)

namespace Ctx

/-- `Context::new`. -/
def new : Ctx := { scope := [⟨[]⟩], counter := 0, inferred := [] }

/-- `Context::push`. -/
def push (c : Ctx) : Ctx := { c with scope := ⟨[]⟩ :: c.scope }

/-- `Context::pop`.  The source panics when only the top-level scope
remains; no modeled computation pops that scope. -/
def pop (c : Ctx) : Ctx := { c with scope := c.scope.tail }

/-- `Context::get_known`: name lookup walking the scope stack from the
innermost scope outwards. -/
def getKnown (c : Ctx) (name : String) : Option Ty :=
  c.scope.findSome? fun s => (s.known.find? fun kv => kv.1 == name).map Prod.snd

/-- `Context::declare_known`: insert into the current (innermost) scope.
The source unwraps the innermost scope; from `Ctx.new` the stack is never
empty. -/
def declareKnown (c : Ctx) (name : String) (ty : Ty) : Ctx :=
  match c.scope with
  | [] => c
  | s :: rest => { c with scope := ⟨(name, ty) :: s.known⟩ :: rest }

/-- `Context::declare_known_iter`: insert each binding in order. -/
def declareKnownIter (c : Ctx) (bindings : List (String × Ty)) : Ctx :=
  bindings.foldl (fun acc kv => acc.declareKnown kv.1 kv.2) c

/-- `Context::get_inferred`. -/
def getInferred (c : Ctx) (idx : Nat) : Option Ty :=
  (c.inferred.find? fun kv => kv.1 == idx).map Prod.snd

/-- `Context::declare_inferred`: mint a fresh inference variable. -/
def declareInferred (c : Ctx) : Ty × Ctx :=
  (Ty.infer c.counter, { c with counter := c.counter + 1 })

/-- `Context::infer`: record a solved inference variable.  (No code in the
repository calls this method.) -/
def inferRecord (c : Ctx) (idx : Nat) (real : Ty) : Ctx :=
  { c with inferred := (idx, real) :: c.inferred }

end Ctx

/-- Unification errors, from `kali-type/src/unify.rs`
(`enum TypeUnificationError`). -/
inductive TypeUnificationError where
  | mismatchedLength (a b : Nat)
  | mismatchedFields (msg : String)
deriving DecidableEq

/-- Outcome of running an embedded fallible computation over the context.
`ok` and `fail` mirror Rust's `Ok`/`Err` and carry the context state (the
source threads `&mut Context` through both); `crashed` mirrors a panic
(`unwrap` on `None`, `todo!`); `noFuel` marks exhausted fuel, the
embedding's image of non-termination. -/
inductive RunRes (ε α : Type) where
  | ok (val : α) (ctx : Ctx)
  | fail (e : ε) (ctx : Ctx)
  | crashed
  | noFuel

mutual

/-- `Unify for Type` from `kali-type/src/unify.rs`, lines 36–87.  The
source's `context.variable(name)` lookup of an inference variable's
binding is `Context::get_inferred` in the embedding (the `Context` of
`infer.rs`, which the callers in `kali-ast` and `engine.rs` pass).  The
source never inserts into the context; every arm here returns the context
it was given, which is proved below rather than assumed. -/
def Ty.unify : Nat → Ty → Ty → Ctx → RunRes TypeUnificationError Ty
  | 0, _, _, _ => .noFuel
  | fuel + 1, a, b, ctx =>
    match a, b with
    -- `(Type::Infer(name), x) | (x, Type::Infer(name))`: if the variable
    -- has a binding, unify the binding with the other side; otherwise
    -- return the other side unchanged.
    | .infer i, x =>
      (match ctx.getInferred i with
      | some t => Ty.unify fuel t x ctx
      | none => .ok x ctx)
    | x, .infer i =>
      (match ctx.getInferred i with
      | some t => Ty.unify fuel t x ctx
      | none => .ok x ctx)
    | .array a', .array b' =>
      (match Ty.unify fuel a' b' ctx with
      | .ok t ctx' => .ok (.array t) ctx'
      | .fail e ctx' => .fail e ctx'
      | .crashed => .crashed
      | .noFuel => .noFuel)
    | .tuple as', .tuple bs' =>
      if as'.length ≠ bs'.length then
        .fail (.mismatchedLength as'.length bs'.length) ctx
      else
        (match Ty.unifyZip fuel as' bs' ctx with
        | .ok ts ctx' => .ok (.tuple ts) ctx'
        | .fail e ctx' => .fail e ctx'
        | .crashed => .crashed
        | .noFuel => .noFuel)
    | .record as', .record bs' =>
      if as'.length ≠ bs'.length then
        .fail (.mismatchedLength as'.length bs'.length) ctx
      else
        (match Ty.unifyFields fuel as' bs' ctx with
        | .ok fields ctx' => .ok (.record fields) ctx'
        | .fail e ctx' => .fail e ctx'
        | .crashed => .crashed
        | .noFuel => .noFuel)
    | x, y =>
      if Ty.beq x y then .ok x ctx
      else .fail (.mismatchedFields (x.debugRepr ++ " != " ++ y.debugRepr)) ctx
termination_by structural fuel a b c => fuel

/-- Element-wise unification of zipped tuple components (the `for` loop of
the tuple arm). -/
def Ty.unifyZip : Nat → List Ty → List Ty → Ctx → RunRes TypeUnificationError (List Ty)
  | 0, _, _, _ => .noFuel
  | _ + 1, [], _, ctx => .ok [] ctx
  | _ + 1, _ :: _, [], ctx => .ok [] ctx
  | fuel + 1, a :: as', b :: bs', ctx =>
    (match Ty.unify fuel a b ctx with
    | .ok t ctx' =>
      (match Ty.unifyZip fuel as' bs' ctx' with
      | .ok ts ctx'' => .ok (t :: ts) ctx''
      | .fail e ctx'' => .fail e ctx''
      | .crashed => .crashed
      | .noFuel => .noFuel)
    | .fail e ctx' => .fail e ctx'
    | .crashed => .crashed
    | .noFuel => .noFuel)
termination_by structural fuel a b c => fuel

/-- Field-wise unification of zipped record fields (the `for` loop of the
record arm): a differing key fails with `MismatchedFields` carrying the
left key. -/
def Ty.unifyFields : Nat → List (String × Ty) → List (String × Ty) → Ctx →
    RunRes TypeUnificationError (List (String × Ty))
  | 0, _, _, _ => .noFuel
  | _ + 1, [], _, ctx => .ok [] ctx
  | _ + 1, _ :: _, [], ctx => .ok [] ctx
  | fuel + 1, (an, at') :: as', (bn, bt) :: bs', ctx =>
    if an ≠ bn then .fail (.mismatchedFields an) ctx
    else
      (match Ty.unify fuel at' bt ctx with
      | .ok t ctx' =>
        (match Ty.unifyFields fuel as' bs' ctx' with
        | .ok fields ctx'' => .ok ((an, t) :: fields) ctx''
        | .fail e ctx'' => .fail e ctx''
        | .crashed => .crashed
        | .noFuel => .noFuel)
      | .fail e ctx' => .fail e ctx'
      | .crashed => .crashed
      | .noFuel => .noFuel)
termination_by structural fuel a b c => fuel

end

end Kali

namespace Kali

/-- Type-inference errors, from `kali-type/src/infer.rs`
(`enum TypeInferenceError`). -/
inductive TypeInferenceError where
  | unificationFailed (t1 t2 : Ty) (cause : TypeUnificationError)
  | multiple (errors : List TypeInferenceError)
  | mismatch (expected found : Ty)
  | resolutionFailed (t : Ty)

/-- Whether an error is the `Multiple` variant. -/
def TypeInferenceError.isMultiple : TypeInferenceError → Bool
  | .multiple _ => true
  | _ => false

/-- `TypeInferenceError::combine` from `kali-type/src/infer.rs`,
lines 144–160.  `Vec::append`/`push` become list append. -/
def TypeInferenceError.combine : TypeInferenceError → TypeInferenceError → TypeInferenceError
  | .multiple errors, .multiple other => .multiple (errors ++ other)
  | .multiple errors, other => .multiple (errors ++ [other])
  | self', .multiple errors => .multiple (errors ++ [self'])
  | self', other => .multiple [self', other]

/-- Literal patterns, from `kali-ast/src/pattern.rs`
(`enum PatternLiteralKind`). -/
inductive PatternLiteral where
  | string (s : String)
  | integer (i : Int)
  | natural (n : Nat)
  | range (lo hi : Int)

/-- Patterns, from `kali-ast/src/pattern.rs`.  The source's
`Pattern { meta, kind }` compares and hashes on `kind` alone, so the
embedding keeps only the kind. -/
inductive Pattern where
  | wildcard
  | ident (name : String)
  | tuple (ps : List Pattern)
  | cons (head tail : Pattern)
  | emptyList
  | literal (l : PatternLiteral)

/-- Binary operators.  `kali-ast/src/expr/binary.rs` enumerates the set
ending in `Concatenate`; the parser generation additionally uses `Cons`.
Both live here; `Cons` falls in the catch-all arm of every typing rule. -/
inductive BinaryOp where
  | add
  | subtract
  | multiply
  | divide
  | exponentiate
  | modulo
  | equal
  | notEqual
  | lessThan
  | lessThanOrEqual
  | greaterThan
  | greaterThanOrEqual
  | logicalAnd
  | logicalOr
  | bitwiseAnd
  | bitwiseOr
  | bitwiseXor
  | bitwiseShiftLeft
  | bitwiseShiftRight
  | concatenate
  | cons
deriving DecidableEq

/-- The comparison-operator set matched by `BinaryExpr::ty`
(`kali-ast/src/expr/binary.rs` lines 60–65) and by the engine's
`Rewriter<BinaryExpr>` (`kali-type/src/engine.rs` lines 66–74). -/
def BinaryOp.isComparison : BinaryOp → Bool
  | .equal | .notEqual | .lessThan | .lessThanOrEqual
  | .greaterThan | .greaterThanOrEqual => true
  | _ => false

/-- Unary operators, from `kali-ast/src/expr/unary.rs`. -/
inductive UnaryOp where
  | negate
  | logicalNot
  | bitwiseNot
deriving DecidableEq

mutual

/-- Literals, from `kali-ast/src/expr/literal.rs` (`enum Literal`).
The `f64` payload of `Float` is never consulted and is omitted.
`Struct` holds a `BTreeMap<String, Node<Expr>>`, embedded as its
key-sorted association list. -/
inductive Literal where
  | natural (n : Nat)
  | integer (i : Int)
  | float
  | bool (b : Bool)
  | string (s : String)
  | unit
  | array (xs : List Expr)
  | tuple (xs : List Expr)
  | strukt (fields : List (String × Expr))

/-- Expressions, from `kali-ast/src/expr/mod.rs` (`enum Expr`) with the
per-variant structs inlined.  `Node` wrappers carry only spans and are
dropped.  Lambda parameters are `Parameter { name, ty }` with the
`TypeExpr` annotation embedded post-`as_ty` as a semantic type. -/
inductive Expr where
  | literal (l : Literal)
  | ident (name : String)
  | binaryExpr (lhs : Expr) (op : BinaryOp) (rhs : Expr)
  | unaryExpr (op : UnaryOp) (inner : Expr)
  | conditional (condition body otherwise : Expr)
  | lambda (params : List (String × Option Ty)) (body : Expr)
  | matchExpr (subject : Expr) (branches : List (Pattern × Expr))
  | call (callee : Expr) (args : List Expr)

end

/-- The parameter-binding fold shared by `Typed for Lambda` and the
`FuncDecl` arm of `Typed for Stmt`: each parameter keeps its annotation or
receives a fresh inference variable, in declaration order. -/
def paramTys : List (String × Option Ty) → Ctx → (List (String × Ty)) × Ctx
  | [], ctx => ([], ctx)
  | (name, annotation) :: rest, ctx =>
    let (t, c1) :=
      match annotation with
      | some t => (t, ctx)
      | none => ctx.declareInferred
    let (ps, c2) := paramTys rest c1
    ((name, t) :: ps, c2)

mutual

/-- `Typed for Expr` from `kali-ast/src/expr/mod.rs`, lines 52–68.
The `Ident` arm returns the known type for the name or mints a fresh
inference variable. -/
def exprTy : Nat → Expr → Ctx → RunRes TypeInferenceError Ty
  | 0, _, _ => .noFuel
  | fuel + 1, e, ctx =>
    match e with
    | .literal l => literalTy fuel l ctx
    | .ident name =>
      (match ctx.getKnown name with
      | some t => .ok t ctx
      | none =>
        let (t, ctx') := ctx.declareInferred
        .ok t ctx')
    | .binaryExpr lhs op rhs => binaryTy fuel lhs op rhs ctx
    | .unaryExpr _ inner => exprTy fuel inner ctx
    | .conditional c b o => conditionalTy fuel c b o ctx
    | .lambda params body => lambdaTy fuel params body ctx
    | .matchExpr _ branches => matchTy fuel branches ctx
    | .call callee args => callTy fuel callee args ctx
termination_by structural fuel a b => fuel

/-- `Typed for Literal` from `kali-ast/src/expr/literal.rs`, lines 48–65.
Note the `Array` arm returns the fold-unified element type itself (not
wrapped in `Array`), exactly as the source does; `Struct` is `todo!()`. -/
def literalTy : Nat → Literal → Ctx → RunRes TypeInferenceError Ty
  | 0, _, _ => .noFuel
  | fuel + 1, l, ctx =>
    match l with
    | .natural _ => .ok (.constant .natural) ctx
    | .integer _ => .ok (.constant .integer) ctx
    | .float => .ok (.constant .float) ctx
    | .bool _ => .ok (.constant .bool) ctx
    | .string _ => .ok (.constant .string) ctx
    | .unit => .ok (.constant .unit) ctx
    | .array xs =>
      let (acc, ctx') := ctx.declareInferred
      foldUnifyExprs fuel xs acc ctx'
    | .tuple xs =>
      (match inferAll fuel xs ctx with
      | .ok ts ctx' => .ok (.tuple ts) ctx'
      | .fail e ctx' => .fail e ctx'
      | .crashed => .crashed
      | .noFuel => .noFuel)
    | .strukt _ => .crashed
termination_by structural fuel a b => fuel

/-- `Typed for BinaryExpr` from `kali-ast/src/expr/binary.rs`,
lines 53–82.  Both operand types are inferred first (sequentially, sharing
the context); sibling errors are `combine`d.  Comparison operators unify
the operands, additionally require the unified type to unify with
`Constant::Int` (`Constant.integer` here), and produce `Bool`; logical
operators require the unified type to unify with `Bool`; every unification
error is wrapped as `UnificationFailed(lhs_ty, rhs_ty, _)`. -/
def binaryTy : Nat → Expr → BinaryOp → Expr → Ctx → RunRes TypeInferenceError Ty
  | 0, _, _, _, _ => .noFuel
  | fuel + 1, lhs, op, rhs, ctx =>
    match exprTy fuel lhs ctx with
    | .crashed => .crashed
    | .noFuel => .noFuel
    | .ok lt c1 =>
      (match exprTy fuel rhs c1 with
      | .crashed => .crashed
      | .noFuel => .noFuel
      | .fail e c2 => .fail e c2
      | .ok rt c2 =>
        (match Ty.unify fuel lt rt c2 with
        | .crashed => .crashed
        | .noFuel => .noFuel
        | .fail e c3 => .fail (.unificationFailed lt rt e) c3
        | .ok inner c3 =>
          if op.isComparison then
            (match Ty.unify fuel inner (.constant .integer) c3 with
            | .ok _ c4 => .ok (.constant .bool) c4
            | .fail e c4 => .fail (.unificationFailed lt rt e) c4
            | .crashed => .crashed
            | .noFuel => .noFuel)
          else if op = .logicalAnd ∨ op = .logicalOr then
            (match Ty.unify fuel inner (.constant .bool) c3 with
            | .ok u c4 => .ok u c4
            | .fail e c4 => .fail (.unificationFailed lt rt e) c4
            | .crashed => .crashed
            | .noFuel => .noFuel)
          else .ok inner c3))
    | .fail e1 c1 =>
      (match exprTy fuel rhs c1 with
      | .crashed => .crashed
      | .noFuel => .noFuel
      | .ok _ c2 => .fail e1 c2
      | .fail e2 c2 => .fail (e1.combine e2) c2)
termination_by structural fuel a b c d => fuel

/-- `Typed for Conditional` from `kali-ast/src/expr/conditional.rs`,
lines 26–47: the condition's type must be *equal* to `Bool` (else
`Mismatch`), and the branch types are unified. -/
def conditionalTy : Nat → Expr → Expr → Expr → Ctx → RunRes TypeInferenceError Ty
  | 0, _, _, _, _ => .noFuel
  | fuel + 1, condition, body, otherwise, ctx =>
    match exprTy fuel condition ctx with
    | .crashed => .crashed
    | .noFuel => .noFuel
    | .fail e c1 => .fail e c1
    | .ok condTy c1 =>
      if ¬ Ty.beq condTy (.constant .bool) then
        .fail (.mismatch (.constant .bool) condTy) c1
      else
        (match exprTy fuel body c1 with
        | .crashed => .crashed
        | .noFuel => .noFuel
        | .fail e c2 => .fail e c2
        | .ok bodyTy c2 =>
          (match exprTy fuel otherwise c2 with
          | .crashed => .crashed
          | .noFuel => .noFuel
          | .fail e c3 => .fail e c3
          | .ok otherTy c3 =>
            (match Ty.unify fuel bodyTy otherTy c3 with
            | .ok u c4 => .ok u c4
            | .fail e c4 => .fail (.unificationFailed bodyTy otherTy e) c4
            | .crashed => .crashed
            | .noFuel => .noFuel)))
termination_by structural fuel a b c d => fuel

/-- `Typed for Lambda` from `kali-ast/src/expr/lambda.rs`, lines 38–66:
bind each parameter to its annotation or a fresh variable, push a scope,
declare the parameters, infer the body, pop. -/
def lambdaTy : Nat → List (String × Option Ty) → Expr → Ctx → RunRes TypeInferenceError Ty
  | 0, _, _, _ => .noFuel
  | fuel + 1, params, body, ctx =>
    let (ps, c1) := paramTys params ctx
    let c2 := (c1.push).declareKnownIter ps
    match exprTy fuel body c2 with
    | .crashed => .crashed
    | .noFuel => .noFuel
    | .fail e c3 => .fail e c3
    | .ok bodyTy c3 => .ok (.lambda (ps.map Prod.snd) bodyTy) c3.pop
termination_by structural fuel a b c => fuel

/-- `Typed for Match` from `kali-ast/src/expr/match.rs`, lines 33–37:
fold-unify the branch bodies (`IndexMap::values` iterates in insertion
order); the subject expression is not consulted. -/
def matchTy : Nat → List (Pattern × Expr) → Ctx → RunRes TypeInferenceError Ty
  | 0, _, _ => .noFuel
  | fuel + 1, branches, ctx =>
    let (acc, ctx') := ctx.declareInferred
    foldUnifyExprs fuel (branches.map Prod.snd) acc ctx'
termination_by structural fuel a b => fuel

/-- `Typed for Call` from `kali-ast/src/expr/call.rs`, lines 13–43: infer
the argument types, then the callee's type, then unify the callee with
`Lambda(args, fresh)`; the error wraps the *first* fresh variable
(`expected_ty`), while the returned type is the *second* (`ret`). -/
def callTy : Nat → Expr → List Expr → Ctx → RunRes TypeInferenceError Ty
  | 0, _, _, _ => .noFuel
  | fuel + 1, callee, args, ctx =>
    match inferAll fuel args ctx with
    | .crashed => .crashed
    | .noFuel => .noFuel
    | .fail e c1 => .fail e c1
    | .ok argTys c1 =>
      (match exprTy fuel callee c1 with
      | .crashed => .crashed
      | .noFuel => .noFuel
      | .fail e c2 => .fail e c2
      | .ok funTy c2 =>
        let (fresh1, c3) := c2.declareInferred
        let expectedTy := Ty.lambda argTys fresh1
        let (ret, c4) := c3.declareInferred
        (match Ty.unify fuel funTy (.lambda argTys ret) c4 with
        | .ok _ c5 => .ok ret c5
        | .fail e c5 => .fail (.unificationFailed funTy expectedTy e) c5
        | .crashed => .crashed
        | .noFuel => .noFuel))
termination_by structural fuel a b c => fuel

/-- `TypedIterator::map_infer` collected through `Result` from
`kali-type/src/iter.rs`: infer each item, stopping at the first error. -/
def inferAll : Nat → List Expr → Ctx → RunRes TypeInferenceError (List Ty)
  | 0, _, _ => .noFuel
  | fuel + 1, items, ctx =>
    match items with
    | [] => .ok [] ctx
    | e :: rest =>
      (match exprTy fuel e ctx with
      | .crashed => .crashed
      | .noFuel => .noFuel
      | .fail err c1 => .fail err c1
      | .ok t c1 =>
        (match inferAll fuel rest c1 with
        | .ok ts c2 => .ok (t :: ts) c2
        | .fail err c2 => .fail err c2
        | .crashed => .crashed
        | .noFuel => .noFuel))
termination_by structural fuel a b => fuel

/-- `TypedIterator::fold_unify`'s `try_fold` loop from
`kali-type/src/iter.rs`, lines 12–18: unify an accumulator (seeded with a
fresh variable by the caller) against each item's type; errors wrap as
`UnificationFailed(item_ty, acc, _)`. -/
def foldUnifyExprs : Nat → List Expr → Ty → Ctx → RunRes TypeInferenceError Ty
  | 0, _, _, _ => .noFuel
  | fuel + 1, items, acc, ctx =>
    match items with
    | [] => .ok acc ctx
    | e :: rest =>
      (match exprTy fuel e ctx with
      | .crashed => .crashed
      | .noFuel => .noFuel
      | .fail err c1 => .fail err c1
      | .ok t c1 =>
        (match Ty.unify fuel acc t c1 with
        | .ok u c2 => foldUnifyExprs fuel rest u c2
        | .fail e' c2 => .fail (.unificationFailed t acc e') c2
        | .crashed => .crashed
        | .noFuel => .noFuel))
termination_by structural fuel a b c => fuel

end

/-- Statements, from `kali-ast/src/stmt/mod.rs` (`enum Stmt`).  The
`Import`/`Export` payloads and the `TypeExpr` of `Type` never influence
typing and are omitted; `FuncDecl` is inlined with its return-type
annotation embedded post-`as_ty`. -/
inductive Stmt where
  | importStmt
  | exportStmt
  | constStmt (name : String) (value : Literal)
  | typeStmt (name : String)
  | decl (name : String) (value : Expr)
  | funcDecl (name : String) (params : List (String × Option Ty))
      (retTy : Option Ty) (body : Expr)

/-- The context under which a `FuncDecl` body is inferred
(`kali-ast/src/stmt/mod.rs` lines 79–88): push a scope, declare the
parameters into it, then declare the function's own name in that same
pushed scope as `Lambda(param_types, ret)`. -/
def funcDeclBodyCtx (name : String) (ps : List (String × Ty)) (retTy : Ty) (ctx : Ctx) : Ctx :=
  ((ctx.push).declareKnownIter ps).declareKnown name (.lambda (ps.map Prod.snd) retTy)

/-- `Typed for Stmt` from `kali-ast/src/stmt/mod.rs`, lines 32–102.
`Type` declarations are `todo!()`; every other statement produces `Never`.
The `FuncDecl` arm declares the return type (annotated or fresh), binds
the parameters, declares the function itself before the body, infers the
body, unifies it with the return type (error order: body first), and pops
— the pop is skipped when the body or the unification fails. -/
def stmtTy : Nat → Stmt → Ctx → RunRes TypeInferenceError Ty
  | 0, _, _ => .noFuel
  | fuel + 1, s, ctx =>
    match s with
    | .importStmt => .ok .never ctx
    | .exportStmt => .ok .never ctx
    | .constStmt _ _ => .ok .never ctx
    | .typeStmt _ => .crashed
    | .decl _ value =>
      (match exprTy fuel value ctx with
      | .ok _ c1 => .ok .never c1
      | .fail e c1 => .fail e c1
      | .crashed => .crashed
      | .noFuel => .noFuel)
    | .funcDecl name params retTyAnn body =>
      let (retTy, c1) :=
        match retTyAnn with
        | some t => (t, ctx)
        | none => ctx.declareInferred
      let (ps, c2) := paramTys params c1
      let c3 := funcDeclBodyCtx name ps retTy c2
      match exprTy fuel body c3 with
      | .crashed => .crashed
      | .noFuel => .noFuel
      | .fail e c4 => .fail e c4
      | .ok bodyTy c4 =>
        (match Ty.unify fuel retTy bodyTy c4 with
        | .ok _ c5 => .ok .never c5.pop
        | .fail e c5 => .fail (.unificationFailed bodyTy retTy e) c5
        | .crashed => .crashed
        | .noFuel => .noFuel)

end Kali

namespace Kali

mutual

/-- Typed literals produced by the engine (`Literal<Meta>`), mirroring
`Literal` with per-node metadata. -/
inductive TLiteral where
  | natural (n : Nat)
  | integer (i : Int)
  | float
  | bool (b : Bool)
  | string (s : String)
  | unit
  | array (xs : List TExpr)
  | tuple (xs : List TExpr)
  | strukt (fields : List (String × TExpr))

/-- Typed expressions produced by the engine (`Expr<Meta>` with
`Meta { span, ty }`; the span is omitted).  The engine's `Lambda` rule is
`todo!()`, so no lambda output node exists. -/
inductive TExpr where
  | literal (meta : Ty) (l : TLiteral)
  | ident (meta : Ty) (name : String)
  | binaryExpr (meta : Ty) (lhs : TExpr) (op : BinaryOp) (rhs : TExpr)
  | unaryExpr (meta : Ty) (op : UnaryOp) (inner : TExpr)
  | conditional (meta : Ty) (condition body otherwise : TExpr)
  | matchExpr (meta : Ty) (subject : TExpr) (branches : List (Pattern × TExpr))
  | call (meta : Ty) (callee : TExpr) (args : List TExpr)

end

/-- The `meta()` accessor (the type component of a node's metadata). -/
def TExpr.meta : TExpr → Ty
  | .literal m _ => m
  | .ident m _ => m
  | .binaryExpr m _ _ _ => m
  | .unaryExpr m _ _ => m
  | .conditional m _ _ _ => m
  | .matchExpr m _ _ => m
  | .call m _ _ => m

mutual

/-- The `Rewriter<Expr<Span>, Expr<Meta>>` dispatch
(`kali-ast/src/rewriter.rs` lines 24–47) instantiated for
`TypeInferenceEngine` (`kali-type/src/engine.rs`).  The `Identifier` rule
(lines 187–201) unwraps the scope lookup and hence panics on an unbound
name; the `Lambda` rule (lines 251–257) is `todo!()`. -/
def engineRewriteExpr : Nat → Expr → Ctx → RunRes TypeInferenceError TExpr
  | 0, _, _ => .noFuel
  | fuel + 1, e, ctx =>
    match e with
    | .literal l => engineRewriteLiteral fuel l ctx
    | .ident name =>
      (match ctx.getKnown name with
      | some t => .ok (.ident t name) ctx
      | none => .crashed)
    | .binaryExpr lhs op rhs => engineRewriteBinary fuel lhs op rhs ctx
    | .unaryExpr op inner =>
      (match engineRewriteExpr fuel inner ctx with
      | .ok inner' c1 => .ok (.unaryExpr inner'.meta op inner') c1
      | .fail e' c1 => .fail e' c1
      | .crashed => .crashed
      | .noFuel => .noFuel)
    | .conditional c b o => engineRewriteConditional fuel c b o ctx
    | .lambda _ _ => .crashed
    | .matchExpr subject branches => engineRewriteMatch fuel subject branches ctx
    | .call callee args =>
      (match engineRewriteExpr fuel callee ctx with
      | .crashed => .crashed
      | .noFuel => .noFuel
      | .fail e' c1 => .fail e' c1
      | .ok callee' c1 =>
        (match engineRewriteAll fuel args c1 with
        | .crashed => .crashed
        | .noFuel => .noFuel
        | .fail e' c2 => .fail e' c2
        | .ok args' c2 =>
          let (t, c3) := c2.declareInferred
          .ok (.call t callee' args') c3))
termination_by structural fuel a b => fuel

/-- `Rewriter<Literal<Span>>` for the engine
(`kali-type/src/engine.rs` lines 122–185).  Unlike `Typed for Literal`,
the `Array` arm wraps the fold-unified element type in `Array`. -/
def engineRewriteLiteral : Nat → Literal → Ctx → RunRes TypeInferenceError TExpr
  | 0, _, _ => .noFuel
  | fuel + 1, l, ctx =>
    match l with
    | .natural n => .ok (.literal (.constant .natural) (.natural n)) ctx
    | .integer i => .ok (.literal (.constant .integer) (.integer i)) ctx
    | .float => .ok (.literal (.constant .float) .float) ctx
    | .bool b => .ok (.literal (.constant .bool) (.bool b)) ctx
    | .string s => .ok (.literal (.constant .string) (.string s)) ctx
    | .unit => .ok (.literal (.constant .unit) .unit) ctx
    | .array xs =>
      (match engineRewriteAll fuel xs ctx with
      | .crashed => .crashed
      | .noFuel => .noFuel
      | .fail e c1 => .fail e c1
      | .ok xs' c1 =>
        let (acc, c2) := c1.declareInferred
        (match foldUnifyTys fuel (xs'.map TExpr.meta) acc c2 with
        | .ok t c3 => .ok (.literal (.array t) (.array xs')) c3
        | .fail e c3 => .fail e c3
        | .crashed => .crashed
        | .noFuel => .noFuel))
    | .tuple xs =>
      (match engineRewriteAll fuel xs ctx with
      | .crashed => .crashed
      | .noFuel => .noFuel
      | .fail e c1 => .fail e c1
      | .ok xs' c1 => .ok (.literal (.tuple (xs'.map TExpr.meta)) (.tuple xs')) c1)
    | .strukt fields =>
      (match engineRewriteFields fuel fields ctx with
      | .crashed => .crashed
      | .noFuel => .noFuel
      | .fail e c1 => .fail e c1
      | .ok fields' c1 =>
        .ok (.literal (.record (fields'.map fun kv => (kv.1, kv.2.meta)))
          (.strukt fields')) c1)
termination_by structural fuel a b => fuel

/-- `Rewriter<BinaryExpr<Span>>` for the engine
(`kali-type/src/engine.rs` lines 52–93): rewrite both sides (errors
short-circuit via `?`), then produce `Bool` for comparison operators
*without unifying the operands*, and the unified operand type
otherwise. -/
def engineRewriteBinary : Nat → Expr → BinaryOp → Expr → Ctx → RunRes TypeInferenceError TExpr
  | 0, _, _, _, _ => .noFuel
  | fuel + 1, lhs, op, rhs, ctx =>
    match engineRewriteExpr fuel lhs ctx with
    | .crashed => .crashed
    | .noFuel => .noFuel
    | .fail e c1 => .fail e c1
    | .ok lhs' c1 =>
      (match engineRewriteExpr fuel rhs c1 with
      | .crashed => .crashed
      | .noFuel => .noFuel
      | .fail e c2 => .fail e c2
      | .ok rhs' c2 =>
        if op.isComparison then
          .ok (.binaryExpr (.constant .bool) lhs' op rhs') c2
        else
          (match Ty.unify fuel lhs'.meta rhs'.meta c2 with
          | .ok t c3 => .ok (.binaryExpr t lhs' op rhs') c3
          | .fail e c3 => .fail (.unificationFailed lhs'.meta rhs'.meta e) c3
          | .crashed => .crashed
          | .noFuel => .noFuel))
termination_by structural fuel a b c d => fuel

/-- `Rewriter<Conditional<Span>>` for the engine
(`kali-type/src/engine.rs` lines 203–249): unify the condition's type with
`Bool` (error order: condition type first, then `Bool`), then unify the
branch types; the node's type is the unified branch type. -/
def engineRewriteConditional : Nat → Expr → Expr → Expr → Ctx → RunRes TypeInferenceError TExpr
  | 0, _, _, _, _ => .noFuel
  | fuel + 1, condition, body, otherwise, ctx =>
    match engineRewriteExpr fuel condition ctx with
    | .crashed => .crashed
    | .noFuel => .noFuel
    | .fail e c1 => .fail e c1
    | .ok condition' c1 =>
      (match engineRewriteExpr fuel body c1 with
      | .crashed => .crashed
      | .noFuel => .noFuel
      | .fail e c2 => .fail e c2
      | .ok body' c2 =>
        (match engineRewriteExpr fuel otherwise c2 with
        | .crashed => .crashed
        | .noFuel => .noFuel
        | .fail e c3 => .fail e c3
        | .ok otherwise' c3 =>
          (match Ty.unify fuel condition'.meta (.constant .bool) c3 with
          | .crashed => .crashed
          | .noFuel => .noFuel
          | .fail e c4 => .fail (.unificationFailed condition'.meta (.constant .bool) e) c4
          | .ok _ c4 =>
            (match Ty.unify fuel body'.meta otherwise'.meta c4 with
            | .crashed => .crashed
            | .noFuel => .noFuel
            | .fail e c5 => .fail (.unificationFailed body'.meta otherwise'.meta e) c5
            | .ok t c5 => .ok (.conditional t condition' body' otherwise') c5))))
termination_by structural fuel a b c d => fuel

/-- `Rewriter<Match<Span>>` for the engine
(`kali-type/src/engine.rs` lines 259–287).  The source collects the
rewritten branches into a `std::collections::HashMap`, whose iteration
order is unspecified; the embedding keeps the input order, which no
theorem below relies on. -/
def engineRewriteMatch : Nat → Expr → List (Pattern × Expr) → Ctx → RunRes TypeInferenceError TExpr
  | 0, _, _, _ => .noFuel
  | fuel + 1, subject, branches, ctx =>
    match engineRewriteExpr fuel subject ctx with
    | .crashed => .crashed
    | .noFuel => .noFuel
    | .fail e c1 => .fail e c1
    | .ok subject' c1 =>
      (match engineRewriteBranches fuel branches c1 with
      | .crashed => .crashed
      | .noFuel => .noFuel
      | .fail e c2 => .fail e c2
      | .ok branches' c2 =>
        let (acc, c3) := c2.declareInferred
        (match foldUnifyTys fuel (branches'.map fun kv => kv.2.meta) acc c3 with
        | .ok t c4 => .ok (.matchExpr t subject' branches') c4
        | .fail e c4 => .fail e c4
        | .crashed => .crashed
        | .noFuel => .noFuel))
termination_by structural fuel a b c => fuel

/-- Rewriting of an expression list, collected through `Result`
(short-circuits at the first error). -/
def engineRewriteAll : Nat → List Expr → Ctx → RunRes TypeInferenceError (List TExpr)
  | 0, _, _ => .noFuel
  | fuel + 1, items, ctx =>
    match items with
    | [] => .ok [] ctx
    | e :: rest =>
      (match engineRewriteExpr fuel e ctx with
      | .crashed => .crashed
      | .noFuel => .noFuel
      | .fail err c1 => .fail err c1
      | .ok t c1 =>
        (match engineRewriteAll fuel rest c1 with
        | .ok ts c2 => .ok (t :: ts) c2
        | .fail err c2 => .fail err c2
        | .crashed => .crashed
        | .noFuel => .noFuel))
termination_by structural fuel a b => fuel

/-- Rewriting of match branches: the pattern rewriter
(`kali-type/src/engine.rs` lines 439–478) is structure-preserving, and the
embedding's patterns carry no metadata, so only the branch expressions are
rewritten. -/
def engineRewriteBranches : Nat → List (Pattern × Expr) → Ctx →
    RunRes TypeInferenceError (List (Pattern × TExpr))
  | 0, _, _ => .noFuel
  | fuel + 1, branches, ctx =>
    match branches with
    | [] => .ok [] ctx
    | (p, e) :: rest =>
      (match engineRewriteExpr fuel e ctx with
      | .crashed => .crashed
      | .noFuel => .noFuel
      | .fail err c1 => .fail err c1
      | .ok e' c1 =>
        (match engineRewriteBranches fuel rest c1 with
        | .ok bs c2 => .ok ((p, e') :: bs) c2
        | .fail err c2 => .fail err c2
        | .crashed => .crashed
        | .noFuel => .noFuel))
termination_by structural fuel a b => fuel

/-- Rewriting of struct-literal fields, in `BTreeMap` iteration order. -/
def engineRewriteFields : Nat → List (String × Expr) → Ctx →
    RunRes TypeInferenceError (List (String × TExpr))
  | 0, _, _ => .noFuel
  | fuel + 1, fields, ctx =>
    match fields with
    | [] => .ok [] ctx
    | (k, e) :: rest =>
      (match engineRewriteExpr fuel e ctx with
      | .crashed => .crashed
      | .noFuel => .noFuel
      | .fail err c1 => .fail err c1
      | .ok e' c1 =>
        (match engineRewriteFields fuel rest c1 with
        | .ok fs c2 => .ok ((k, e') :: fs) c2
        | .fail err c2 => .fail err c2
        | .crashed => .crashed
        | .noFuel => .noFuel))
termination_by structural fuel a b => fuel

/-- The `try_fold` loop of `fold_unify` applied to a list of already-known
types (`kali-type/src/iter.rs`; the engine folds over `&Type` values whose
`ty` is the type itself). -/
def foldUnifyTys : Nat → List Ty → Ty → Ctx → RunRes TypeInferenceError Ty
  | 0, _, _, _ => .noFuel
  | fuel + 1, items, acc, ctx =>
    match items with
    | [] => .ok acc ctx
    | t :: rest =>
      (match Ty.unify fuel acc t ctx with
      | .ok u c1 => foldUnifyTys fuel rest u c1
      | .fail e c1 => .fail (.unificationFailed t acc e) c1
      | .crashed => .crashed
      | .noFuel => .noFuel)
termination_by structural fuel a b c => fuel

end

end Kali

namespace Kali

mutual

/-- Structural equality of patterns, the source's hand-written
`PartialEq for PatternKind` (`kali-ast/src/pattern.rs` lines 47–62):
metadata is excluded, identifiers compare by value. -/
def Pattern.beq : Pattern → Pattern → Bool
  | .cons lh lt, .cons rh rt => Pattern.beq lh rh && Pattern.beq lt rt
  | .emptyList, .emptyList => true
  | .ident l, .ident r => l == r
  | .literal l, .literal r =>
    (match l, r with
    | .string a, .string b => a == b
    | .integer a, .integer b => a == b
    | .natural a, .natural b => a == b
    | .range a b, .range a' b' => a == a' && b == b'
    | _, _ => false)
  | .tuple l, .tuple r => Pattern.beqList l r
  | .wildcard, .wildcard => true
  | _, _ => false

/-- Element-wise equality of pattern lists. -/
def Pattern.beqList : List Pattern → List Pattern → Bool
  | [], [] => true
  | a :: as', b :: bs' => Pattern.beq a b && Pattern.beqList as' bs'
  | _, _ => false

end

/-- `IndexMap::insert` (and `HashMap::insert`) keyed by pattern equality:
an existing key keeps its position (and its original key value) and has
its value replaced; a new key is appended. -/
def indexMapInsert (m : List (Pattern × Expr)) (k : Pattern) (v : Expr) :
    List (Pattern × Expr) :=
  match m with
  | [] => [(k, v)]
  | (k', v') :: rest =>
    if Pattern.beq k' k then (k', v) :: rest
    else (k', v') :: indexMapInsert rest k v

/-- The multi-pattern branch expansion shared by `Match::new`
(`kali-ast/src/expr/match.rs` lines 18–31) and the parser's `match_expr`
(`kali-parse/src/expr.rs` lines 249–256): each branch's pattern list is
flat-mapped into one `(pattern, rhs)` entry per pattern, in source
order. -/
def expandBranches (bs : List (List Pattern × Expr)) : List (Pattern × Expr) :=
  bs.flatMap fun branch => branch.1.map fun p => (p, branch.2)

/-- `FromIterator` for the branch map: fold the expanded entries through
`insert` starting from the empty map. -/
def collectBranchMap (entries : List (Pattern × Expr)) : List (Pattern × Expr) :=
  entries.foldl (fun m kv => indexMapInsert m kv.1 kv.2) []

/-- The branch map built by `Match::new` and by the parser's `match_expr`
from the parsed branch list. -/
def matchNewBranches (bs : List (List Pattern × Expr)) : List (Pattern × Expr) :=
  collectBranchMap (expandBranches bs)

/-- Tokens consumed by the expression parser of `kali-parse/src/expr.rs`
(the `Token` enum of the logos lexer generation, restricted to the
variants that grammar consults). -/
inductive PTok where
  | ident (s : String)
  | litBool (b : Bool)
  | litInteger (i : Int)
  | litNatural (n : Nat)
  | litString (s : String)
  | litUnit
  | symArray
  | blockStart
  | blockEnd
  | lparen
  | rparen
  | comma
  | opPow
  | opMul
  | opDiv
  | opMod
  | opAdd
  | opSub
  | opAnd
  | opOr
  | lAngle
  | rAngle
  | opLe
  | opGe
  | opEq
  | opNe
  | opCons
  | opBitNot
  | kwIf
  | kwThen
  | kwElse
  | kwMatch
  | kwWith
  | pipe
  | arrow
deriving DecidableEq

/-- A parser over a token list: chumsky's ordered-choice, rewind-on-failure
combinators are embedded as `Option`-valued functions consuming a prefix.
A `none` also stands for exhausted fuel. -/
abbrev P (α : Type) := List PTok → Option (α × List PTok)

/-- `just(token)`. -/
def pJust (t : PTok) : P Unit := fun toks =>
  match toks with
  | t' :: rest => if t' = t then some ((), rest) else none
  | [] => none

/-- The `literal` select parser (`kali-parse/src/expr.rs` lines 61–78). -/
def pLiteral : P Literal := fun toks =>
  match toks with
  | .litBool b :: rest => some (.bool b, rest)
  | .litInteger i :: rest => some (.integer i, rest)
  | .litNatural n :: rest => some (.natural n, rest)
  | .litString s :: rest => some (.string s, rest)
  | .litUnit :: rest => some (.unit, rest)
  | .symArray :: rest => some (.array [], rest)
  | _ => none

/-- The `identifier` select parser (`kali-parse/src/common.rs`). -/
def pIdentTok : P String := fun toks =>
  match toks with
  | .ident s :: rest => some (s, rest)
  | _ => none

mutual

/-- Pattern atoms (`kali-parse/src/pattern.rs` lines 14–34): identifier,
empty list, natural/integer literal, or parenthesised comma-separated
tuple; this parser generation has no wildcard production. -/
def pPatternAtom : Nat → P Pattern
  | 0 => fun _ => none
  | fuel + 1 => fun toks =>
    match pIdentTok toks with
    | some (s, rest) => some (.ident s, rest)
    | none =>
    match toks with
    | .symArray :: rest => some (.emptyList, rest)
    | .litNatural n :: rest => some (.literal (.natural n), rest)
    | .litInteger i :: rest => some (.literal (.integer i), rest)
    | .lparen :: rest =>
      (match pPatternSepComma fuel rest with
      | some (ps, rest') =>
        (match rest' with
        | .rparen :: rest'' => some (.tuple ps, rest'')
        | _ => none)
      | none => none)
    | _ => none
termination_by structural fuel => fuel

/-- One-or-more patterns separated by commas (the tuple body). -/
def pPatternSepComma : Nat → P (List Pattern)
  | 0 => fun _ => none
  | fuel + 1 => fun toks =>
    match pPattern fuel toks with
    | none => none
    | some (p, rest) =>
      (match rest with
      | .comma :: rest' =>
        (match pPatternSepComma fuel rest' with
        | some (ps, rest'') => some (p :: ps, rest'')
        | none => some ([p], rest))
      | _ => some ([p], rest))
termination_by structural fuel => fuel

/-- The greedy `(atom ::)*` chain of the pattern cons layer. -/
def pPatternConsChain : Nat → P (List Pattern)
  | 0 => fun _ => none
  | fuel + 1 => fun toks =>
    match pPatternAtom fuel toks with
    | some (a, rest) =>
      (match rest with
      | .opCons :: rest' =>
        (match pPatternConsChain fuel rest' with
        | some (as', rest'') => some (a :: as', rest'')
        | none => some ([], toks))
      | _ => some ([], toks))
    | none => some ([], toks)
termination_by structural fuel => fuel

/-- The full pattern parser (`kali-parse/src/pattern.rs`): a right-folded
cons chain over atoms. -/
def pPattern : Nat → P Pattern
  | 0 => fun _ => none
  | fuel + 1 => fun toks =>
    match pPatternConsChain fuel toks with
    | some (chain, rest) =>
      (match pPatternAtom fuel rest with
      | some (last, rest') => some (chain.foldr (fun a b => .cons a b) last, rest')
      | none => none)
    | none => none
termination_by structural fuel => fuel

end

/-- A binary-operator select parser from a token-to-operator table. -/
def pBinOp (sel : PTok → Option BinaryOp) : P BinaryOp := fun toks =>
  match toks with
  | t :: rest =>
    (match sel t with
    | some op => some (op, rest)
    | none => none)
  | [] => none

/-- The `foldl` loop of `ParserExt::operationl`
(`kali-parse/src/common.rs` lines 32–44): greedily consume `(op operand)`
groups, folding left-associatively. -/
def pBinoplLoop (sel : PTok → Option BinaryOp) (sub : P Expr) : Nat → Expr → P Expr
  | 0, acc => fun toks => some (acc, toks)
  | fuel + 1, acc => fun toks =>
    match pBinOp sel toks with
    | some (op, rest) =>
      (match sub rest with
      | some (rhs, rest') => pBinoplLoop sel sub fuel (.binaryExpr acc op rhs) rest'
      | none => some (acc, toks))
    | none => some (acc, toks)

/-- `ParserExt::operationl` / `ExprParserExt::binopl`: a left-associative
binary-operation layer over `sub`. -/
def pBinopl (sel : PTok → Option BinaryOp) (sub : P Expr) : Nat → P Expr
  | fuel => fun toks =>
    match sub toks with
    | some (first, rest) => pBinoplLoop sel sub fuel first rest
    | none => none

/-- The greedy `(operand op)*` chain of `ParserExt::operationr`
(`kali-parse/src/common.rs` lines 47–59). -/
def pBinoprChain (sel : PTok → Option BinaryOp) (sub : P Expr) :
    Nat → P (List (Expr × BinaryOp))
  | 0 => fun _ => none
  | fuel + 1 => fun toks =>
    match sub toks with
    | some (e, rest) =>
      (match pBinOp sel rest with
      | some (op, rest') =>
        (match pBinoprChain sel sub fuel rest' with
        | some (pairs, rest'') => some ((e, op) :: pairs, rest'')
        | none => some ([], toks))
      | none => some ([], toks))
    | none => some ([], toks)

/-- `ParserExt::operationr` / `ExprParserExt::binopr`: a right-associative
binary-operation layer over `sub` (`(sub op)* foldr sub`). -/
def pBinopr (sel : PTok → Option BinaryOp) (sub : P Expr) : Nat → P Expr
  | fuel => fun toks =>
    match pBinoprChain sel sub fuel toks with
    | some (pairs, rest) =>
      (match sub rest with
      | some (last, rest') =>
        some (pairs.foldr (fun p acc => .binaryExpr p.1 p.2 acc) last, rest')
      | none => none)
    | none => none

mutual

/-- The expression parser of `kali-parse/src/expr.rs` (lines 80–266): the
top-level choice between the cons layer, conditionals and match
expressions. -/
def pExpr : Nat → P Expr
  | 0 => fun _ => none
  | fuel + 1 => fun toks =>
    match pConsLayer fuel toks with
    | some r => some r
    | none =>
    match pConditional fuel toks with
    | some r => some r
    | none => pMatch fuel toks
termination_by structural fuel => fuel

/-- `atom`: a block- or parenthesis-delimited expression, a literal, or an
identifier (in that choice order). -/
def pAtom : Nat → P Expr
  | 0 => fun _ => none
  | fuel + 1 => fun toks =>
    match toks with
    | .blockStart :: rest =>
      (match pExpr fuel rest with
      | some (e, .blockEnd :: rest') => some (e, rest')
      | _ => pAtomFallback fuel toks)
    | .lparen :: rest =>
      (match pExpr fuel rest with
      | some (e, .rparen :: rest') => some (e, rest')
      | _ => pAtomFallback fuel toks)
    | _ => pAtomFallback fuel toks
termination_by structural fuel => fuel

/-- The literal and identifier alternatives of `atom`. -/
def pAtomFallback : Nat → P Expr
  | 0 => fun _ => none
  | _ + 1 => fun toks =>
    match pLiteral toks with
    | some (l, rest) => some (.literal l, rest)
    | none =>
      (match pIdentTok toks with
      | some (s, rest) => some (.ident s, rest)
      | none => none)

/-- `unary`: zero or more prefix operators (`-`, `~`) right-folded over an
atom. -/
def pUnary : Nat → P Expr
  | 0 => fun _ => none
  | fuel + 1 => fun toks =>
    match toks with
    | .opSub :: rest =>
      (match pUnary fuel rest with
      | some (inner, rest') => some (.unaryExpr .negate inner, rest')
      | none => none)
    | .opBitNot :: rest =>
      (match pUnary fuel rest with
      | some (inner, rest') => some (.unaryExpr .bitwiseNot inner, rest')
      | none => none)
    | _ => pAtom fuel toks
termination_by structural fuel => fuel

/-- `callable`: a parenthesised expression or an identifier. -/
def pCallable : Nat → P Expr
  | 0 => fun _ => none
  | fuel + 1 => fun toks =>
    match toks with
    | .lparen :: rest =>
      (match pExpr fuel rest with
      | some (e, .rparen :: rest') => some (e, rest')
      | _ =>
        (match pIdentTok toks with
        | some (s, rest') => some (.ident s, rest')
        | none => none))
    | _ =>
      (match pIdentTok toks with
      | some (s, rest) => some (.ident s, rest)
      | none => none)
termination_by structural fuel => fuel

/-- One or more unary-layer arguments (the `unary.repeated().at_least(1)`
argument form of `call`). -/
def pArgs : Nat → P (List Expr)
  | 0 => fun _ => none
  | fuel + 1 => fun toks =>
    match pUnary fuel toks with
    | some (a, rest) =>
      (match pArgs fuel rest with
      | some (as', rest') => some (a :: as', rest')
      | none => some ([a], rest))
    | none => none
termination_by structural fuel => fuel

/-- `call` (`kali-parse/src/expr.rs` lines 123–156): a callable followed by
arguments or `()`, a callable followed by `( )`, or a bare atom. -/
def pCall : Nat → P Expr
  | 0 => fun _ => none
  | fuel + 1 => fun toks =>
    match
      (match pCallable fuel toks with
      | some (f, rest) =>
        (match pArgs fuel rest with
        | some (args, rest') => some (Expr.call f args, rest')
        | none =>
          (match rest with
          | .lparen :: .rparen :: rest' => some (Expr.call f [], rest')
          | _ => none))
      | none => none)
    with
    | some r => some r
    | none =>
      (match pCallable fuel toks with
      | some (f, .lparen :: .rparen :: rest') => some (Expr.call f [], rest')
      | _ => pAtom fuel toks)
termination_by structural fuel => fuel

/-- The `**` layer (`exp`). -/
def pExpLayer : Nat → P Expr
  | 0 => fun _ => none
  | fuel + 1 =>
    pBinopl (fun t => match t with | .opPow => some .exponentiate | _ => none)
      (pCall fuel) fuel
termination_by structural fuel => fuel

/-- The `*`, `/`, `%` layer (`mul`). -/
def pMulLayer : Nat → P Expr
  | 0 => fun _ => none
  | fuel + 1 =>
    pBinopl
      (fun t => match t with
        | .opMul => some .multiply
        | .opDiv => some .divide
        | .opMod => some .modulo
        | _ => none)
      (pExpLayer fuel) fuel
termination_by structural fuel => fuel

/-- The `+`, `-` layer (`add`). -/
def pAddLayer : Nat → P Expr
  | 0 => fun _ => none
  | fuel + 1 =>
    pBinopl
      (fun t => match t with
        | .opAdd => some .add
        | .opSub => some .subtract
        | _ => none)
      (pMulLayer fuel) fuel
termination_by structural fuel => fuel

/-- The `&&`, `||` layer (`logical`). -/
def pLogicalLayer : Nat → P Expr
  | 0 => fun _ => none
  | fuel + 1 =>
    pBinopl
      (fun t => match t with
        | .opAnd => some .logicalAnd
        | .opOr => some .logicalOr
        | _ => none)
      (pAddLayer fuel) fuel
termination_by structural fuel => fuel

/-- The `<`, `<=`, `>`, `>=` layer (`comparison`). -/
def pComparisonLayer : Nat → P Expr
  | 0 => fun _ => none
  | fuel + 1 =>
    pBinopl
      (fun t => match t with
        | .lAngle => some .lessThan
        | .opLe => some .lessThanOrEqual
        | .rAngle => some .greaterThan
        | .opGe => some .greaterThanOrEqual
        | _ => none)
      (pLogicalLayer fuel) fuel
termination_by structural fuel => fuel

/-- The `==`, `!=` layer (`equality`), left-associative via `binopl`. -/
def pEqualityLayer : Nat → P Expr
  | 0 => fun _ => none
  | fuel + 1 =>
    pBinopl
      (fun t => match t with
        | .opEq => some .equal
        | .opNe => some .notEqual
        | _ => none)
      (pComparisonLayer fuel) fuel
termination_by structural fuel => fuel

/-- The `::` layer (`cons`), right-associative via `binopr`. -/
def pConsLayer : Nat → P Expr
  | 0 => fun _ => none
  | fuel + 1 =>
    pBinopr (fun t => match t with | .opCons => some .cons | _ => none)
      (pEqualityLayer fuel) fuel
termination_by structural fuel => fuel

/-- `conditional`: `if <expr> then <expr> else <expr>`. -/
def pConditional : Nat → P Expr
  | 0 => fun _ => none
  | fuel + 1 => fun toks =>
    match toks with
    | .kwIf :: rest =>
      (match pExpr fuel rest with
      | some (c, .kwThen :: rest') =>
        (match pExpr fuel rest' with
        | some (b, .kwElse :: rest'') =>
          (match pExpr fuel rest'' with
          | some (o, rest''') => some (.conditional c b o, rest''')
          | none => none)
        | _ => none)
      | _ => none)
    | _ => none
termination_by structural fuel => fuel

/-- One match branch: patterns separated by `|`, then `->`, then the
right-hand side. -/
def pBranch : Nat → P (List Pattern × Expr)
  | 0 => fun _ => none
  | fuel + 1 => fun toks =>
    match pBranchPatterns fuel toks with
    | some (ps, .arrow :: rest) =>
      (match pExpr fuel rest with
      | some (e, rest') => some ((ps, e), rest')
      | none => none)
    | _ => none
termination_by structural fuel => fuel

/-- Zero or more branch patterns separated by `|`
(`pattern().separated_by(just(Token::SymPipe))`). -/
def pBranchPatterns : Nat → P (List Pattern)
  | 0 => fun _ => none
  | fuel + 1 => fun toks =>
    match pPattern fuel toks with
    | none => some ([], toks)
    | some (p, rest) =>
      (match rest with
      | .pipe :: rest' =>
        (match pBranchPatterns fuel rest' with
        | some (ps, rest'') =>
          (match ps with
          | [] => some ([p], rest)
          | _ => some (p :: ps, rest''))
        | none => some ([p], rest))
      | _ => some ([p], rest))
termination_by structural fuel => fuel

/-- Zero or more branches separated by `|`, with an optional leading `|`
(`separated_by(SymPipe).allow_leading()`). -/
def pBranches : Nat → P (List (List Pattern × Expr))
  | 0 => fun _ => none
  | fuel + 1 => fun toks =>
    let toks' :=
      match toks with
      | .pipe :: rest => rest
      | _ => toks
    pBranchesTail fuel toks'
termination_by structural fuel => fuel

/-- The branch list proper. -/
def pBranchesTail : Nat → P (List (List Pattern × Expr))
  | 0 => fun _ => none
  | fuel + 1 => fun toks =>
    match pBranch fuel toks with
    | none => some ([], toks)
    | some (b, rest) =>
      (match rest with
      | .pipe :: rest' =>
        (match pBranchesTail fuel rest' with
        | some (bs, rest'') =>
          (match bs with
          | [] => some ([b], rest)
          | _ => some (b :: bs, rest''))
        | none => some ([b], rest))
      | _ => some ([b], rest))
termination_by structural fuel => fuel

/-- `match_expr` (`kali-parse/src/expr.rs` lines 229–259):
`match <expr> with BlockStart <branches> BlockEnd`, the branches
flat-mapped and collected into the branch map. -/
def pMatch : Nat → P Expr
  | 0 => fun _ => none
  | fuel + 1 => fun toks =>
    match toks with
    | .kwMatch :: rest =>
      (match pExpr fuel rest with
      | some (subject, .kwWith :: .blockStart :: rest') =>
        (match pBranches fuel rest' with
        | some (bs, .blockEnd :: rest'') =>
          some (.matchExpr subject (matchNewBranches bs), rest'')
        | _ => none)
      | _ => none)
    | _ => none
termination_by structural fuel => fuel

end

end Kali

namespace Kali

/-- Symbols of the hand-written lexer, from `kali-parse/src/lexer.rs`
(`enum Symbol`). -/
inductive LSymbol where
  | leftParen
  | rightParen
  | leftBracket
  | rightBracket
  | leftBrace
  | rightBrace
  | pipe
  | arrow
  | colon
deriving DecidableEq

/-- Operators of the hand-written lexer (`enum Operator`). -/
inductive LOperator where
  | add
  | sub
  | mul
  | div
deriving DecidableEq

/-- Keywords of the hand-written lexer (`enum Keyword`). -/
inductive LKeyword where
  | kIf
  | kElse
  | kMatch
  | kLet
  | kFn
  | kWith
deriving DecidableEq

/-- Tokens of the hand-written lexer (`enum Token`).  The `Numeric` and
`String` variants exist in the enum but `Lexer::token` has no production
for them. -/
inductive LTok where
  | symbol (s : LSymbol)
  | operator (o : LOperator)
  | numericNatural (n : Nat)
  | numericInteger (i : Int)
  | numericReal
  | keyword (k : LKeyword)
  | identifier (s : String)
  | stringLit (contents : String)
  | blockStart
  | blockEnd
deriving DecidableEq

/-- The state of `struct Lexer` (`kali-parse/src/lexer.rs` lines 74–102).
`position` is the source's byte counter and `charsAt` the index of its
`chars` iterator; `Lexer::restore` rebuilds `chars` from the byte offset
`self.position`, which the embedding mirrors as an index assignment —
exact whenever the input is ASCII, as every modeled input is. -/
structure LexState where
  input : List Char
  position : Nat
  charsAt : Nat
  indent : Nat
  indentSpace : Bool
  indentSpacesCount : Nat
  backtrack : Nat

namespace LexState

/-- `Lexer::new`. -/
def mk' (source : String) : LexState :=
  { input := source.data, position := 0, charsAt := 0, indent := 0,
    indentSpace := false, indentSpacesCount := 0, backtrack := 0 }

/-- The unread portion of the `chars` iterator. -/
def rest (s : LexState) : List Char := s.input.drop s.charsAt

/-- `char::len_utf8`. -/
def utf8Len (c : Char) : Nat :=
  if c.toNat < 0x80 then 1
  else if c.toNat < 0x800 then 2
  else if c.toNat < 0x10000 then 3
  else 4

/-- Total UTF-8 length of a character sequence. -/
def utf8LenList (l : List Char) : Nat := (l.map utf8Len).sum

/-- `Lexer::eat_if`. -/
def eatIf (p : Char → Bool) (s : LexState) : Bool × LexState :=
  match s.rest with
  | c :: _ =>
    if p c then
      (true, { s with position := s.position + utf8Len c, charsAt := s.charsAt + 1 })
    else (false, s)
  | [] => (false, s)

/-- `Lexer::eat_while` (its net effect on the state). -/
def eatWhile (p : Char → Bool) (s : LexState) : LexState :=
  let taken := s.rest.takeWhile p
  { s with position := s.position + utf8LenList taken, charsAt := s.charsAt + taken.length }

/-- `Lexer::restore`: the source rebuilds `chars` from byte offset
`self.position` *before* resetting `self.position` to `pos`, so the two
can go out of sync. -/
def restore (pos : Nat) (s : LexState) : LexState :=
  { s with backtrack := s.backtrack + 1, charsAt := s.position, position := pos }

/-- The byte-range slice `&input[start..stop]` as characters (ASCII). -/
def sliceStr (input : List Char) (start stop : Nat) : List Char :=
  (input.drop start).take (stop - start)

/-- The loop of `Lexer::eat_literal`, with the entry position to restore
to on mismatch. -/
def eatLiteralAux (start : Nat) : List Char → LexState → Bool × LexState
  | [], s => (true, s)
  | c :: cs, s =>
    if s.rest.head? = some c then
      eatLiteralAux start cs
        { s with position := s.position + utf8Len c, charsAt := s.charsAt + 1 }
    else (false, restore start s)

/-- `Lexer::eat_literal`. -/
def eatLiteral (lit : String) (s : LexState) : Bool × LexState :=
  eatLiteralAux s.position lit.data s

/-- The loop of `Lexer::eat_exactly_n`. -/
def eatExactlyNAux (start : Nat) (c : Char) : Nat → LexState → Bool × LexState
  | 0, s => (true, s)
  | n + 1, s =>
    let (b, s') := eatIf (· == c) s
    if b then eatExactlyNAux start c n s' else (false, restore start s')

/-- `Lexer::eat_exactly_n`. -/
def eatExactlyN (c : Char) (n : Nat) (s : LexState) : Bool × LexState :=
  eatExactlyNAux s.position c n s

/-- `Lexer::eat_inline_whitespace`: note the predicate
`c.is_whitespace() && *c != '\n' || *c == '\r'`. -/
def eatInlineWhitespace (s : LexState) : LexState :=
  eatWhile (fun c => (c.isWhitespace && c ≠ '\n') || c == '\r') s

/-- `Lexer::emit_while`: eat while the predicate holds and return the
byte-range slice, or `none` when nothing was eaten. -/
def emitWhile (p : Char → Bool) (s : LexState) : Option (List Char) × LexState :=
  let start := s.position
  let s' := eatWhile p s
  if s'.position = start then (none, s')
  else (some (sliceStr s'.input start s'.position), s')

/-- The loop of `Lexer::choose_literal`: try each choice, restoring to the
entry position after a failed candidate. -/
def chooseLiteralAux (start : Nat) : List String → LexState → Option String × LexState
  | [], s => (none, s)
  | c :: cs, s =>
    let (b, s1) := eatLiteral c s
    if b then (some c, s1)
    else chooseLiteralAux start cs (restore start s1)

/-- `Lexer::choose_literal`. -/
def chooseLiteral (choices : List String) (s : LexState) : Option String × LexState :=
  chooseLiteralAux s.position choices s

/-- `unicode_ident::is_xid_start`, restricted to ASCII (letters). -/
def isXidStart (c : Char) : Bool := c.isAlpha

/-- `unicode_ident::is_xid_continue`, restricted to ASCII
(alphanumerics and underscore). -/
def isXidContinue (c : Char) : Bool := c.isAlphanum || c == '_'

/-- `Lexer::identifier`. -/
def identifier (s : LexState) : Option String × LexState :=
  let start := s.position
  let (b, s1) := eatIf isXidStart s
  if b then
    let s2 := eatWhile isXidContinue s1
    (some (String.mk (sliceStr s2.input start s2.position)), s2)
  else (none, restore start s1)

/-- `Lexer::keyword`. -/
def keyword (s : LexState) : Option LKeyword × LexState :=
  match chooseLiteral ["if", "else", "match", "let", "fn", "with"] s with
  | (some "if", s') => (some .kIf, s')
  | (some "else", s') => (some .kElse, s')
  | (some "match", s') => (some .kMatch, s')
  | (some "let", s') => (some .kLet, s')
  | (some "fn", s') => (some .kFn, s')
  | (some "with", s') => (some .kWith, s')
  | (_, s') => (none, s')

/-- `Lexer::symbol`. -/
def symbol (s : LexState) : Option LSymbol × LexState :=
  match chooseLiteral ["(", ")", "[", "]", "\x7b", "\x7d", "|", "->", ":"] s with
  | (some "(", s') => (some .leftParen, s')
  | (some ")", s') => (some .rightParen, s')
  | (some "[", s') => (some .leftBracket, s')
  | (some "]", s') => (some .rightBracket, s')
  | (some "\x7b", s') => (some .leftBrace, s')
  | (some "\x7d", s') => (some .rightBrace, s')
  | (some "|", s') => (some .pipe, s')
  | (some "->", s') => (some .arrow, s')
  | (some ":", s') => (some .colon, s')
  | (_, s') => (none, s')

/-- `Lexer::operator`. -/
def operator (s : LexState) : Option LOperator × LexState :=
  match chooseLiteral ["+", "-", "*", "/"] s with
  | (some "+", s') => (some .add, s')
  | (some "-", s') => (some .sub, s')
  | (some "*", s') => (some .mul, s')
  | (some "/", s') => (some .div, s')
  | (_, s') => (none, s')

/-- `Lexer::start_block` (`kali-parse/src/lexer.rs` lines 283–316).  At
indentation 0 the indentation kind is recorded but `indent` itself is not
incremented; in the nested case `indent` is incremented *before* checking
the indentation, and a failed check restores the position but not the
incremented `indent`. -/
def startBlock (s : LexState) : Option LTok × LexState :=
  let start := s.position
  match chooseLiteral ["\n", "\r\n"] s with
  | (none, s1) => (none, restore start s1)
  | (some _, s1) =>
    if s1.indent = 0 then
      let (sp, s2) := emitWhile (· == ' ') s1
      let s3 :=
        match sp with
        | some chars => { s2 with indentSpace := true, indentSpacesCount := chars.length }
        | none => (emitWhile (· == '\t') s2).2
      (some .blockStart, s3)
    else
      let s2 := { s1 with indent := s1.indent + 1 }
      let (correct, s3) :=
        if s2.indentSpace then eatExactlyN ' ' (s2.indentSpacesCount * s2.indent) s2
        else eatExactlyN '\t' s2.indent s2
      if correct then (some .blockStart, s3) else (none, restore start s3)

/-- `Lexer::end_block` (`kali-parse/src/lexer.rs` lines 321–346).  At
indentation 0 the opening newline has already been consumed when `None` is
returned, with no restore. -/
def endBlock (s : LexState) : Option LTok × LexState :=
  let start := s.position
  match chooseLiteral ["\n", "\r\n"] s with
  | (none, s1) => (none, restore start s1)
  | (some _, s1) =>
    if s1.indent = 0 then (none, s1)
    else
      let (correct, s2) :=
        if s1.indentSpace then eatExactlyN ' ' (s1.indentSpacesCount * (s1.indent - 1)) s1
        else eatExactlyN '\t' (s1.indent - 1) s1
      if correct then (some .blockEnd, { s2 with indent := s2.indent - 1 })
      else (none, restore start s2)

/-- `Lexer::token` (`kali-parse/src/lexer.rs` lines 351–361): inline
whitespace, then the `end_block → start_block → keyword → symbol →
operator → identifier` alternative chain, each attempt continuing from the
state the previous one left behind. -/
def token (s : LexState) : Option LTok × LexState :=
  let s0 := eatInlineWhitespace s
  match endBlock s0 with
  | (some t, s1) => (some t, s1)
  | (none, s1) =>
  match startBlock s1 with
  | (some t, s2) => (some t, s2)
  | (none, s2) =>
  match keyword s2 with
  | (some k, s3) => (some (.keyword k), s3)
  | (none, s3) =>
  match symbol s3 with
  | (some sym, s4) => (some (.symbol sym), s4)
  | (none, s4) =>
  match operator s4 with
  | (some o, s5) => (some (.operator o), s5)
  | (none, s5) =>
  match identifier s5 with
  | (some name, s6) => (some (.identifier name), s6)
  | (none, s6) => (none, s6)

end LexState

/-- Repeated `Lexer::token` calls until the first `None`: the complete
token stream of an input. -/
def lexTokens : Nat → LexState → List LTok
  | 0, _ => []
  | fuel + 1, s =>
    match LexState.token s with
    | (some t, s') => t :: lexTokens fuel s'
    | (none, _) => []

/-- The token stream of a source string (fuel amply above the source
length). -/
def lexAll (source : String) : List LTok :=
  lexTokens (source.length + 16) (LexState.mk' source)

end Kali

namespace Kali

theorem unify_preserves_aux : ∀ (fuel : Nat),
    (∀ a b ctx t c', Ty.unify fuel a b ctx = .ok t c' → c' = ctx)
    ∧ (∀ a b ctx e c', Ty.unify fuel a b ctx = .fail e c' → c' = ctx)
    ∧ (∀ l1 l2 ctx t c', Ty.unifyZip fuel l1 l2 ctx = .ok t c' → c' = ctx)
    ∧ (∀ l1 l2 ctx e c', Ty.unifyZip fuel l1 l2 ctx = .fail e c' → c' = ctx)
    ∧ (∀ l1 l2 ctx t c', Ty.unifyFields fuel l1 l2 ctx = .ok t c' → c' = ctx)
    ∧ (∀ l1 l2 ctx e c', Ty.unifyFields fuel l1 l2 ctx = .fail e c' → c' = ctx) := by
  intro fuel
  induction fuel with
  | zero =>
    refine ⟨?_, ?_, ?_, ?_, ?_, ?_⟩ <;> intro a b ctx t c' h <;>
      simp [Ty.unify, Ty.unifyZip, Ty.unifyFields] at h
  | succ n ih =>
    obtain ⟨ihOk, ihFail, ihZOk, ihZFail, ihFOk, ihFFail⟩ := ih
    refine ⟨?_, ?_, ?_, ?_, ?_, ?_⟩
    · intro a b ctx t c' h
      cases a <;> cases b <;>
        simp only [Ty.unify] at h <;>
        (repeat' split at h) <;>
        (try (cases h)) <;>
        (try rfl) <;>
        (first
          | exact ihOk _ _ _ _ _ ‹_›
          | exact ihFail _ _ _ _ _ ‹_›
          | exact ihZOk _ _ _ _ _ ‹_›
          | exact ihZFail _ _ _ _ _ ‹_›
          | exact ihFOk _ _ _ _ _ ‹_›
          | exact ihFFail _ _ _ _ _ ‹_›
          | (exact (ihZOk _ _ _ _ _ ‹_›).trans (ihOk _ _ _ _ _ ‹_›))
          | (exact (ihFOk _ _ _ _ _ ‹_›).trans (ihOk _ _ _ _ _ ‹_›))
          | (exact (ihZOk _ _ _ _ _ ‹_›).trans (ihOk _ _ _ _ _ ‹_›))
          | (exact (ihFOk _ _ _ _ _ ‹_›).trans (ihOk _ _ _ _ _ ‹_›)))
    · intro a b ctx e c' h
      cases a <;> cases b <;>
        simp only [Ty.unify] at h <;>
        (repeat' split at h) <;>
        (try (cases h)) <;>
        (try rfl) <;>
        (first
          | exact ihOk _ _ _ _ _ ‹_›
          | exact ihFail _ _ _ _ _ ‹_›
          | exact ihZOk _ _ _ _ _ ‹_›
          | exact ihZFail _ _ _ _ _ ‹_›
          | exact ihFOk _ _ _ _ _ ‹_›
          | exact ihFFail _ _ _ _ _ ‹_›
          | (exact (ihZFail _ _ _ _ _ ‹_›).trans (ihOk _ _ _ _ _ ‹_›))
          | (exact (ihFFail _ _ _ _ _ ‹_›).trans (ihOk _ _ _ _ _ ‹_›))
          | (exact (ihZFail _ _ _ _ _ ‹_›).trans (ihOk _ _ _ _ _ ‹_›))
          | (exact (ihFFail _ _ _ _ _ ‹_›).trans (ihOk _ _ _ _ _ ‹_›)))
    · intro l1 l2 ctx t c' h
      cases l1 <;> cases l2 <;>
        simp only [Ty.unifyZip] at h <;>
        (repeat' split at h) <;>
        (try (cases h)) <;>
        (try rfl) <;>
        (first
          | exact ihOk _ _ _ _ _ ‹_›
          | (exact (ihZOk _ _ _ _ _ ‹_›).trans (ihOk _ _ _ _ _ ‹_›))
          | (exact (ihZOk _ _ _ _ _ ‹_›).trans (ihOk _ _ _ _ _ ‹_›)))
    · intro l1 l2 ctx e c' h
      cases l1 <;> cases l2 <;>
        simp only [Ty.unifyZip] at h <;>
        (repeat' split at h) <;>
        (try (cases h)) <;>
        (try rfl) <;>
        (first
          | exact ihFail _ _ _ _ _ ‹_›
          | (exact (ihZFail _ _ _ _ _ ‹_›).trans (ihOk _ _ _ _ _ ‹_›))
          | (exact (ihZFail _ _ _ _ _ ‹_›).trans (ihOk _ _ _ _ _ ‹_›)))
    · intro l1 l2 ctx t c' h
      cases l1 <;> cases l2 <;>
        simp only [Ty.unifyFields] at h <;>
        (repeat' split at h) <;>
        (try (cases h)) <;>
        (try rfl) <;>
        (first
          | exact ihOk _ _ _ _ _ ‹_›
          | (exact (ihFOk _ _ _ _ _ ‹_›).trans (ihOk _ _ _ _ _ ‹_›))
          | (exact (ihFOk _ _ _ _ _ ‹_›).trans (ihOk _ _ _ _ _ ‹_›)))
    · intro l1 l2 ctx e c' h
      cases l1 <;> cases l2 <;>
        simp only [Ty.unifyFields] at h <;>
        (repeat' split at h) <;>
        (try (cases h)) <;>
        (try rfl) <;>
        (first
          | exact ihFail _ _ _ _ _ ‹_›
          | (exact (ihFFail _ _ _ _ _ ‹_›).trans (ihOk _ _ _ _ _ ‹_›))
          | (exact (ihFFail _ _ _ _ _ ‹_›).trans (ihOk _ _ _ _ _ ‹_›)))

/-- C10: `Type::unify` never mutates the inference context: whenever
unification returns (with a result or a unification error), the context —
its scope stack, fresh-variable counter, and substitution (`inferred`)
map — is exactly the context passed in.  Unification computes a combined
type but records no variable bindings (`Context::infer` is never
invoked). -/
theorem unify_never_mutates_context (fuel : Nat) (a b : Ty) (ctx : Ctx) :
    (∀ t c', Ty.unify fuel a b ctx = .ok t c' →
      c' = ctx ∧ c'.scope = ctx.scope ∧ c'.counter = ctx.counter ∧ c'.inferred = ctx.inferred)
    ∧ (∀ e c', Ty.unify fuel a b ctx = .fail e c' →
      c' = ctx ∧ c'.scope = ctx.scope ∧ c'.counter = ctx.counter ∧ c'.inferred = ctx.inferred) := by
  constructor
  · intro t c' h
    have := (unify_preserves_aux fuel).1 a b ctx t c' h
    simp [this]
  · intro e c' h
    have := (unify_preserves_aux fuel).2.1 a b ctx e c' h
    simp [this]

/-- Witness for C10 at a concrete input: unifying `Integer` with `Integer`
in the fresh context succeeds and returns the context unchanged. -/
theorem unify_never_mutates_context_witness :
    Ty.unify 1 (.constant .integer) (.constant .integer) Ctx.new
        = .ok (.constant .integer) Ctx.new
    ∧ Ctx.new = Ctx.new :=
  ⟨rfl, ((unify_never_mutates_context 1 (.constant .integer) (.constant .integer) Ctx.new).1
      (.constant .integer) Ctx.new rfl).1⟩

/-- C1 (amended): unifying `Infer(i)` with `x` returns `x` when `i` is
unbound in the context (and symmetrically when the non-inference side is
`x`), but *records nothing*: the context — in particular its substitution
map — is returned unchanged, and the claimed bindings `i ↦ x` are absent.
The tuple example `unify(Tuple[Infer 0, Integer], Tuple[Integer, Infer 1])`
produces `Tuple[Integer, Integer]` with the (empty) substitution map
untouched. -/
theorem unify_infer_returns_other_records_nothing :
    (∀ (fuel i : Nat) (x : Ty) (ctx : Ctx), ctx.getInferred i = none →
      Ty.unify (fuel + 1) (.infer i) x ctx = .ok x ctx)
    ∧ (∀ (fuel i : Nat) (x : Ty) (ctx : Ctx), ctx.getInferred i = none →
      x.isInfer = false → Ty.unify (fuel + 1) x (.infer i) ctx = .ok x ctx)
    ∧ Ty.unify 10 (.tuple [.infer 0, .constant .integer])
        (.tuple [.constant .integer, .infer 1]) Ctx.new
        = .ok (.tuple [.constant .integer, .constant .integer]) Ctx.new := by
  refine ⟨?_, ?_, rfl⟩
  · intro fuel i x ctx h
    simp [Ty.unify, h]
  · intro fuel i x ctx h hx
    cases x <;> simp [Ty.unify, h] <;> simp [Ty.isInfer] at hx

/-- Witness for C1's amended theorem at concrete inputs. -/
theorem unify_infer_returns_other_records_nothing_witness :
    Ctx.new.getInferred 0 = none
    ∧ Ty.unify 1 (.infer 0) (.constant .bool) Ctx.new = .ok (.constant .bool) Ctx.new
    ∧ Ty.isInfer (.constant .bool) = false
    ∧ Ty.unify 1 (.constant .bool) (.infer 0) Ctx.new = .ok (.constant .bool) Ctx.new :=
  ⟨rfl,
    unify_infer_returns_other_records_nothing.1 0 0 (.constant .bool) Ctx.new rfl,
    rfl,
    unify_infer_returns_other_records_nothing.2.1 0 0 (.constant .bool) Ctx.new rfl rfl⟩

/-- C1 counterexample: the tuple unification of the claim returns
`Tuple[Integer, Integer]`, but afterwards the context's substitution map
does *not* contain `0 ↦ Integer` or `1 ↦ Integer` — the resulting context
is the untouched `Ctx.new`, whose substitution map is empty.  (The
recording method `Context::infer` exists but `unify` never calls it.) -/
theorem unify_tuple_records_no_substitution :
    Ty.unify 10 (.tuple [.infer 0, .constant .integer])
        (.tuple [.constant .integer, .infer 1]) Ctx.new
      = .ok (.tuple [.constant .integer, .constant .integer]) Ctx.new
    ∧ Ctx.new.getInferred 0 = none
    ∧ Ctx.new.getInferred 1 = none
    ∧ Ctx.new.inferred = [] :=
  ⟨rfl, rfl, rfl, rfl⟩

end Kali

namespace Kali

/-- `declare_known_iter` on a context with at least one scope prepends the
bindings (in reverse, matching repeated `HashMap::insert`) onto the
innermost scope. -/
theorem declareKnownIter_cons (bs : List (String × Ty)) :
    ∀ (k : List (String × Ty)) (rest : List Scope) (cnt : Nat) (inf : List (Nat × Ty)),
      Ctx.declareKnownIter ⟨⟨k⟩ :: rest, cnt, inf⟩ bs
        = ⟨⟨bs.reverse ++ k⟩ :: rest, cnt, inf⟩ := by
  induction bs with
  | nil => intro k rest cnt inf; simp [Ctx.declareKnownIter]
  | cons b bs ih =>
    intro k rest cnt inf
    have step : Ctx.declareKnownIter ⟨⟨k⟩ :: rest, cnt, inf⟩ (b :: bs)
        = Ctx.declareKnownIter ⟨⟨b :: k⟩ :: rest, cnt, inf⟩ bs := by
      simp [Ctx.declareKnownIter, Ctx.declareKnown]
    rw [step, ih]
    simp

/-- C2 (amended): the `FuncDecl` rule declares the function's own name, as
`Lambda(param_types, ret)`, in the *newly pushed* scope — before the body
is inferred, so the name is in scope inside the body — and leaves the
enclosing scopes untouched; the body's type is unified against the
annotated return type or a fresh inference variable, as the successful
inference of `fn id x = x` shows (the binding disappears again when the
scope is popped: the final context holds no `id`). -/
theorem funcDecl_declares_name_in_pushed_scope :
    (∀ (name : String) (ps : List (String × Ty)) (retTy : Ty) (ctx : Ctx),
      (funcDeclBodyCtx name ps retTy ctx).getKnown name
        = some (.lambda (ps.map Prod.snd) retTy))
    ∧ (∀ (name : String) (ps : List (String × Ty)) (retTy : Ty) (ctx : Ctx),
      (funcDeclBodyCtx name ps retTy ctx).scope.tail = ctx.scope)
    ∧ stmtTy 20 (.funcDecl "id" [("x", none)] none (.ident "x")) Ctx.new
        = .ok .never { scope := [⟨[]⟩], counter := 2, inferred := [] } := by
  refine ⟨?_, ?_, rfl⟩
  · intro name ps retTy ctx
    unfold funcDeclBodyCtx
    rw [show ctx.push = ⟨⟨[]⟩ :: ctx.scope, ctx.counter, ctx.inferred⟩ from rfl]
    rw [declareKnownIter_cons]
    simp [Ctx.declareKnown, Ctx.getKnown, List.findSome?]
  · intro name ps retTy ctx
    unfold funcDeclBodyCtx
    rw [show ctx.push = ⟨⟨[]⟩ :: ctx.scope, ctx.counter, ctx.inferred⟩ from rfl]
    rw [declareKnownIter_cons]
    simp [Ctx.declareKnown]

/-- The body of `fn fact n = if n == 0 then 1 else n * fact(n - 1)`, with
the numeric literals taken as integers (the reading most favourable to the
claim; the unsigned decimal literals the lexer actually produces are
naturals, which make inference fail even earlier, at `n == 0`). -/
def factBody : Expr :=
  .conditional
    (.binaryExpr (.ident "n") .equal (.literal (.integer 0)))
    (.literal (.integer 1))
    (.binaryExpr (.ident "n") .multiply
      (.call (.ident "fact") [.binaryExpr (.ident "n") .subtract (.literal (.integer 1))]))

/-- C2 counterexample: direct recursion does *not* type-check — inference
on the claim's own example `fn fact n = if n == 0 then 1 else
n * fact(n - 1)` fails, because `unify` has no rule for two `Lambda`
types, so the recursive call `fact(n - 1)` cannot unify the declared
`Lambda([Infer 1], Infer 0)` with the expected `Lambda([Integer], _)`.
Consequently the example cannot resolve to `Lambda([Integer], Integer)`.
(The pushed scope holding `fact` and `n` is still in place in the
returned context, because the source skips `pop` on the error path.) -/
theorem funcDecl_fact_does_not_typecheck :
    stmtTy 30 (.funcDecl "fact" [("n", none)] none factBody) Ctx.new
      = .fail
          (.unificationFailed (.lambda [.infer 1] (.infer 0))
            (.lambda [.constant .integer] (.infer 2))
            (.mismatchedFields
              "Lambda([Infer(1)], Infer(0)) != Lambda([Constant(Integer)], Infer(3))"))
          ⟨[⟨[("fact", .lambda [.infer 1] (.infer 0)), ("n", .infer 1)]⟩, ⟨[]⟩], 4, []⟩ := by
  rfl

end Kali

namespace Kali

/-- C3 (amended): in the `Typed for BinaryExpr` implementation a
comparison operator requires the operand types to unify with each other
(failure is surfaced as `UnificationFailed(lhs_ty, rhs_ty, _)`), requires
the unified type to additionally unify with `Integer`, and yields `Bool`;
in the rewriter engine's `BinaryExpr` rule, however, a comparison yields
`Bool` without any operand unification at all. -/
theorem comparison_operator_typing :
    (∀ (fuel : Nat) (lhs rhs : Expr) (op : BinaryOp) (ctx : Ctx) (lt rt : Ty)
        (c1 c2 c3 : Ctx) (e : TypeUnificationError),
      op.isComparison = true →
      exprTy fuel lhs ctx = .ok lt c1 →
      exprTy fuel rhs c1 = .ok rt c2 →
      Ty.unify fuel lt rt c2 = .fail e c3 →
      binaryTy (fuel + 1) lhs op rhs ctx = .fail (.unificationFailed lt rt e) c3)
    ∧ (∀ (fuel : Nat) (lhs rhs : Expr) (op : BinaryOp) (ctx : Ctx) (lt rt u v : Ty)
        (c1 c2 c3 c4 : Ctx),
      op.isComparison = true →
      exprTy fuel lhs ctx = .ok lt c1 →
      exprTy fuel rhs c1 = .ok rt c2 →
      Ty.unify fuel lt rt c2 = .ok u c3 →
      Ty.unify fuel u (.constant .integer) c3 = .ok v c4 →
      binaryTy (fuel + 1) lhs op rhs ctx = .ok (.constant .bool) c4)
    ∧ (∀ (fuel : Nat) (lhs rhs : Expr) (op : BinaryOp) (ctx : Ctx) (lt rt u : Ty)
        (c1 c2 c3 c4 : Ctx) (e : TypeUnificationError),
      op.isComparison = true →
      exprTy fuel lhs ctx = .ok lt c1 →
      exprTy fuel rhs c1 = .ok rt c2 →
      Ty.unify fuel lt rt c2 = .ok u c3 →
      Ty.unify fuel u (.constant .integer) c3 = .fail e c4 →
      binaryTy (fuel + 1) lhs op rhs ctx = .fail (.unificationFailed lt rt e) c4)
    ∧ (∀ (fuel : Nat) (lhs rhs : Expr) (op : BinaryOp) (ctx : Ctx) (lhs' rhs' : TExpr)
        (c1 c2 : Ctx),
      op.isComparison = true →
      engineRewriteExpr fuel lhs ctx = .ok lhs' c1 →
      engineRewriteExpr fuel rhs c1 = .ok rhs' c2 →
      engineRewriteBinary (fuel + 1) lhs op rhs ctx
        = .ok (.binaryExpr (.constant .bool) lhs' op rhs') c2) := by
  refine ⟨?_, ?_, ?_, ?_⟩
  · intro fuel lhs rhs op ctx lt rt c1 c2 c3 e hc h1 h2 h3
    simp [binaryTy, h1, h2, h3, hc]
  · intro fuel lhs rhs op ctx lt rt u v c1 c2 c3 c4 hc h1 h2 h3 h4
    simp [binaryTy, h1, h2, h3, h4, hc]
  · intro fuel lhs rhs op ctx lt rt u c1 c2 c3 c4 e hc h1 h2 h3 h4
    simp [binaryTy, h1, h2, h3, h4, hc]
  · intro fuel lhs rhs op ctx lhs' rhs' c1 c2 hc h1 h2
    simp [engineRewriteBinary, h1, h2, hc]

/-- Witness for C3's amended theorem at concrete inputs: `1 == 2` over
integer literals yields `Bool` in the `Typed` implementation, and
`true == 1` yields `Bool` in the engine. -/
theorem comparison_operator_typing_witness :
    binaryTy 6 (.literal (.integer 1)) .equal (.literal (.integer 2)) Ctx.new
      = .ok (.constant .bool) Ctx.new
    ∧ engineRewriteBinary 6 (.literal (.bool true)) .equal (.literal (.natural 1)) Ctx.new
      = .ok (.binaryExpr (.constant .bool) (.literal (.constant .bool) (.bool true)) .equal
          (.literal (.constant .natural) (.natural 1))) Ctx.new :=
  ⟨comparison_operator_typing.2.1 5 (.literal (.integer 1)) (.literal (.integer 2)) .equal
      Ctx.new (.constant .integer) (.constant .integer) (.constant .integer)
      (.constant .integer) Ctx.new Ctx.new Ctx.new Ctx.new rfl rfl rfl rfl rfl,
    comparison_operator_typing.2.2.2 5 (.literal (.bool true)) (.literal (.natural 1)) .equal
      Ctx.new (.literal (.constant .bool) (.bool true)) (.literal (.constant .natural) (.natural 1))
      Ctx.new Ctx.new rfl rfl rfl⟩

/-- C3 counterexample: under the rewriter engine, `true == 1` succeeds
with type `Bool` even though the operand types `Bool` and `Natural` do not
unify — refuting the claim that inference fails when the operands do not
unify. -/
theorem engine_comparison_skips_operand_unification :
    engineRewriteExpr 6 (.binaryExpr (.literal (.bool true)) .equal (.literal (.natural 1))) Ctx.new
      = .ok (.binaryExpr (.constant .bool) (.literal (.constant .bool) (.bool true)) .equal
          (.literal (.constant .natural) (.natural 1))) Ctx.new
    ∧ Ty.unify 6 (.constant .bool) (.constant .natural) Ctx.new
      = .fail (.mismatchedFields "Constant(Bool) != Constant(Natural)") Ctx.new :=
  ⟨rfl, rfl⟩

end Kali

namespace Kali

/-- C7 (amended): the engine's conditional rule unifies the condition's
type with `Bool` and the two branch types with each other, the node's type
being the unified branch type; a non-boolean condition fails with
`UnificationFailed(condition_type, Bool, _)` — the condition's type first
and `Bool` second.  Concretely, `if true then 1 else 2` infers `Natural`
(unsigned decimal literals lex as naturals), and `if 1 then 1 else 2`
fails with `UnificationFailed(Natural, Bool, _)`. -/
theorem conditional_typing :
    (∀ (fuel : Nat) (c b o : Expr) (ctx : Ctx) (c' b' o' : TExpr) (k1 k2 k3 k4 : Ctx)
        (e : TypeUnificationError),
      engineRewriteExpr fuel c ctx = .ok c' k1 →
      engineRewriteExpr fuel b k1 = .ok b' k2 →
      engineRewriteExpr fuel o k2 = .ok o' k3 →
      Ty.unify fuel c'.meta (.constant .bool) k3 = .fail e k4 →
      engineRewriteConditional (fuel + 1) c b o ctx
        = .fail (.unificationFailed c'.meta (.constant .bool) e) k4)
    ∧ (∀ (fuel : Nat) (c b o : Expr) (ctx : Ctx) (c' b' o' : TExpr) (k1 k2 k3 k4 k5 : Ctx)
        (w u : Ty),
      engineRewriteExpr fuel c ctx = .ok c' k1 →
      engineRewriteExpr fuel b k1 = .ok b' k2 →
      engineRewriteExpr fuel o k2 = .ok o' k3 →
      Ty.unify fuel c'.meta (.constant .bool) k3 = .ok w k4 →
      Ty.unify fuel b'.meta o'.meta k4 = .ok u k5 →
      engineRewriteConditional (fuel + 1) c b o ctx = .ok (.conditional u c' b' o') k5)
    ∧ (∀ (fuel : Nat) (c b o : Expr) (ctx : Ctx) (c' b' o' : TExpr) (k1 k2 k3 k4 k5 : Ctx)
        (w : Ty) (e : TypeUnificationError),
      engineRewriteExpr fuel c ctx = .ok c' k1 →
      engineRewriteExpr fuel b k1 = .ok b' k2 →
      engineRewriteExpr fuel o k2 = .ok o' k3 →
      Ty.unify fuel c'.meta (.constant .bool) k3 = .ok w k4 →
      Ty.unify fuel b'.meta o'.meta k4 = .fail e k5 →
      engineRewriteConditional (fuel + 1) c b o ctx
        = .fail (.unificationFailed b'.meta o'.meta e) k5)
    ∧ engineRewriteExpr 10
        (.conditional (.literal (.bool true)) (.literal (.natural 1)) (.literal (.natural 2)))
        Ctx.new
      = .ok (.conditional (.constant .natural) (.literal (.constant .bool) (.bool true))
          (.literal (.constant .natural) (.natural 1))
          (.literal (.constant .natural) (.natural 2))) Ctx.new
    ∧ engineRewriteExpr 10
        (.conditional (.literal (.natural 1)) (.literal (.natural 1)) (.literal (.natural 2)))
        Ctx.new
      = .fail (.unificationFailed (.constant .natural) (.constant .bool)
          (.mismatchedFields "Constant(Natural) != Constant(Bool)")) Ctx.new := by
  refine ⟨?_, ?_, ?_, rfl, rfl⟩
  · intro fuel c b o ctx c' b' o' k1 k2 k3 k4 e h1 h2 h3 h4
    simp [engineRewriteConditional, h1, h2, h3, h4]
  · intro fuel c b o ctx c' b' o' k1 k2 k3 k4 k5 w u h1 h2 h3 h4 h5
    simp [engineRewriteConditional, h1, h2, h3, h4, h5]
  · intro fuel c b o ctx c' b' o' k1 k2 k3 k4 k5 w e h1 h2 h3 h4 h5
    simp [engineRewriteConditional, h1, h2, h3, h4, h5]

/-- Witness for C7's amended theorem at a concrete input. -/
theorem conditional_typing_witness :
    engineRewriteConditional 10
        (.literal (.bool true)) (.literal (.natural 1)) (.literal (.natural 2)) Ctx.new
      = .ok (.conditional (.constant .natural) (.literal (.constant .bool) (.bool true))
          (.literal (.constant .natural) (.natural 1))
          (.literal (.constant .natural) (.natural 2))) Ctx.new :=
  conditional_typing.2.1 9 (.literal (.bool true)) (.literal (.natural 1))
    (.literal (.natural 2)) Ctx.new
    (.literal (.constant .bool) (.bool true)) (.literal (.constant .natural) (.natural 1))
    (.literal (.constant .natural) (.natural 2)) Ctx.new Ctx.new Ctx.new Ctx.new Ctx.new
    (.constant .bool) (.constant .natural) rfl rfl rfl rfl rfl

/-- C7 counterexample: `"if true then 1 else 2"` infers `Natural`, not
`Integer` — the unsigned decimal literals `1` and `2` lex as natural
literals, which the engine types as `Constant(Natural)`; and the failing
conditional's error carries the condition type first, not `Bool`. -/
theorem conditional_infers_natural_not_integer :
    engineRewriteExpr 10
        (.conditional (.literal (.bool true)) (.literal (.natural 1)) (.literal (.natural 2)))
        Ctx.new
      = .ok (.conditional (.constant .natural) (.literal (.constant .bool) (.bool true))
          (.literal (.constant .natural) (.natural 1))
          (.literal (.constant .natural) (.natural 2))) Ctx.new
    ∧ Ty.constant .natural ≠ Ty.constant .integer
    ∧ engineRewriteExpr 10
        (.conditional (.literal (.natural 1)) (.literal (.natural 1)) (.literal (.natural 2)))
        Ctx.new
      = .fail (.unificationFailed (.constant .natural) (.constant .bool)
          (.mismatchedFields "Constant(Natural) != Constant(Bool)")) Ctx.new
    ∧ Ty.constant .natural ≠ Ty.constant .bool := by
  refine ⟨rfl, by simp, rfl, by simp⟩

/-- C8 (amended): `Typed for Expr`'s identifier rule returns the type
bound to the name (the scope stack searched innermost-first, so a binding
declared in a pushed scope shadows an outer one), and mints a fresh
inference variable — advancing only the counter — when the name is
unbound, never failing; the rewriter engine's identifier rule instead
`unwrap`s the lookup and panics on an unbound name. -/
theorem identifier_typing :
    (∀ (fuel : Nat) (name : String) (t : Ty) (ctx : Ctx),
      ctx.getKnown name = some t →
      exprTy (fuel + 1) (.ident name) ctx = .ok t ctx)
    ∧ (∀ (fuel : Nat) (name : String) (ctx : Ctx),
      ctx.getKnown name = none →
      exprTy (fuel + 1) (.ident name) ctx
        = .ok (.infer ctx.counter) { ctx with counter := ctx.counter + 1 })
    ∧ (∀ (name : String) (t : Ty) (ctx : Ctx),
      ((ctx.push).declareKnown name t).getKnown name = some t)
    ∧ (∀ (fuel : Nat) (name : String) (t : Ty) (ctx : Ctx),
      ctx.getKnown name = some t →
      engineRewriteExpr (fuel + 1) (.ident name) ctx = .ok (.ident t name) ctx) := by
  refine ⟨?_, ?_, ?_, ?_⟩
  · intro fuel name t ctx h
    simp [exprTy, h]
  · intro fuel name ctx h
    simp [exprTy, h, Ctx.declareInferred]
  · intro name t ctx
    simp [Ctx.push, Ctx.declareKnown, Ctx.getKnown, List.findSome?, List.find?]
  · intro fuel name t ctx h
    simp [engineRewriteExpr, h]

/-- Witness for C8's amended theorem at concrete inputs. -/
theorem identifier_typing_witness :
    Ctx.new.getKnown "x" = none
    ∧ exprTy 1 (.ident "x") Ctx.new = .ok (.infer 0) { Ctx.new with counter := 1 }
    ∧ (Ctx.new.declareKnown "y" (.constant .bool)).getKnown "y" = some (.constant .bool)
    ∧ exprTy 1 (.ident "y") (Ctx.new.declareKnown "y" (.constant .bool))
        = .ok (.constant .bool) (Ctx.new.declareKnown "y" (.constant .bool)) :=
  ⟨rfl, identifier_typing.2.1 0 "x" Ctx.new rfl, rfl,
    identifier_typing.1 0 "y" (.constant .bool) (Ctx.new.declareKnown "y" (.constant .bool)) rfl⟩

/-- C8 counterexample: the rewriter engine's identifier rule panics
(`.unwrap()` on `None`) on an identifier bound in no scope, refuting the
claim that inference of an unbound identifier does not fail or panic. -/
theorem engine_unbound_identifier_panics :
    Ctx.new.getKnown "x" = none
    ∧ engineRewriteExpr 5 (.ident "x") Ctx.new = .crashed :=
  ⟨rfl, rfl⟩

end Kali

namespace Kali

/-- Flatness of an error: a `Multiple` whose elements are all
non-`Multiple` (any other variant is trivially flat). -/
def TypeInferenceError.isFlat : TypeInferenceError → Prop
  | .multiple l => ∀ x ∈ l, x.isMultiple = false
  | _ => True

/-- `combine` of two non-`Multiple` errors is the flat two-element
`Multiple`. -/
theorem combine_not_multiple (a b : TypeInferenceError)
    (ha : a.isMultiple = false) (hb : b.isMultiple = false) :
    a.combine b = .multiple [a, b] := by
  cases a <;> cases b <;>
    simp [TypeInferenceError.isMultiple] at ha hb ⊢ <;>
    rfl

/-- `combine` with a `Multiple` on the left appends. -/
theorem combine_multiple_left (l : List TypeInferenceError) (b : TypeInferenceError)
    (hb : b.isMultiple = false) :
    TypeInferenceError.combine (.multiple l) b = .multiple (l ++ [b]) := by
  cases b <;> simp [TypeInferenceError.isMultiple] at hb ⊢ <;> rfl

/-- `combine` with a `Multiple` on the right pushes the left error onto
the *end* of the right error's list. -/
theorem combine_multiple_right (a : TypeInferenceError) (l : List TypeInferenceError)
    (ha : a.isMultiple = false) :
    TypeInferenceError.combine a (.multiple l) = .multiple (l ++ [a]) := by
  cases a <;> simp [TypeInferenceError.isMultiple] at ha ⊢ <;> rfl

/-- A flat list extended with one non-`Multiple` element stays flat. -/
theorem isFlat_append_single (l : List TypeInferenceError) (b : TypeInferenceError)
    (hl : ∀ x ∈ l, x.isMultiple = false) (hb : b.isMultiple = false) :
    (TypeInferenceError.multiple (l ++ [b])).isFlat := by
  intro x hx
  rcases List.mem_append.mp hx with h | h
  · exact hl x h
  · rw [List.mem_singleton.mp h]; exact hb

/-- A two-element list of non-`Multiple` errors is flat. -/
theorem isFlat_pair (a b : TypeInferenceError)
    (ha : a.isMultiple = false) (hb : b.isMultiple = false) :
    (TypeInferenceError.multiple [a, b]).isFlat := by
  intro x hx
  rcases List.mem_cons.mp hx with h | h
  · rw [h]; exact ha
  · rw [List.mem_singleton.mp h]; exact hb

/-- C9 (amended): `combine` always produces a flat `Multiple` when its
operands are flat, but it is *not* associative as an equality of values:
for non-`Multiple` errors `a`, `b`, `c`, combining left-to-right yields
`Multiple [a, b, c]` while combining right-to-left yields
`Multiple [b, c, a]` — the same errors up to permutation, in different
order (the `(self, Multiple)` arm pushes `self` onto the end). -/
theorem combine_flattens_but_reorders :
    (∀ a b c : TypeInferenceError,
      a.isMultiple = false → b.isMultiple = false → c.isMultiple = false →
      (a.combine b).combine c = .multiple [a, b, c]
      ∧ a.combine (b.combine c) = .multiple [b, c, a]
      ∧ ([a, b, c] : List TypeInferenceError).Perm [b, c, a])
    ∧ (∀ a b : TypeInferenceError, a.isFlat → b.isFlat → (a.combine b).isFlat) := by
  constructor
  · intro a b c ha hb hc
    refine ⟨?_, ?_, ?_⟩
    · rw [combine_not_multiple a b ha hb, combine_multiple_left [a, b] c hc]
      simp
    · rw [combine_not_multiple b c hb hc, combine_multiple_right a [b, c] ha]
      simp
    · exact @List.perm_append_comm _ [a] [b, c]
  · intro a b ha hb
    cases a <;> cases b
    case multiple.multiple la lb =>
      intro x hx
      rcases List.mem_append.mp hx with h | h
      · exact ha x h
      · exact hb x h
    all_goals
      first
        | exact isFlat_append_single _ _ ha rfl
        | exact isFlat_append_single _ _ hb rfl
        | exact isFlat_pair _ _ rfl rfl

/-- Witness for C9's amended theorem at concrete errors. -/
theorem combine_flattens_but_reorders_witness :
    (TypeInferenceError.isMultiple (.resolutionFailed (.constant .integer)) = false)
    ∧ ((TypeInferenceError.resolutionFailed (.constant .integer)).combine
          (.resolutionFailed (.constant .bool))).combine (.resolutionFailed (.constant .natural))
        = .multiple [.resolutionFailed (.constant .integer), .resolutionFailed (.constant .bool),
            .resolutionFailed (.constant .natural)] :=
  ⟨rfl,
    (combine_flattens_but_reorders.1 (.resolutionFailed (.constant .integer))
      (.resolutionFailed (.constant .bool)) (.resolutionFailed (.constant .natural))
      rfl rfl rfl).1⟩

/-- C9 counterexample: `combine` is not associative — on three concrete
non-`Multiple` errors the two association orders produce `Multiple` lists
with different element order. -/
theorem combine_not_associative :
    (TypeInferenceError.resolutionFailed (.constant .integer)).combine
        ((TypeInferenceError.resolutionFailed (.constant .bool)).combine
          (.resolutionFailed (.constant .natural)))
      = .multiple [.resolutionFailed (.constant .bool), .resolutionFailed (.constant .natural),
          .resolutionFailed (.constant .integer)]
    ∧ ((TypeInferenceError.resolutionFailed (.constant .integer)).combine
        (.resolutionFailed (.constant .bool))).combine (.resolutionFailed (.constant .natural))
      = .multiple [.resolutionFailed (.constant .integer), .resolutionFailed (.constant .bool),
          .resolutionFailed (.constant .natural)]
    ∧ (TypeInferenceError.multiple [.resolutionFailed (.constant .bool),
          .resolutionFailed (.constant .natural), .resolutionFailed (.constant .integer)]
        ≠ .multiple [.resolutionFailed (.constant .integer), .resolutionFailed (.constant .bool),
          .resolutionFailed (.constant .natural)]) := by
  refine ⟨rfl, rfl, by simp⟩

end Kali

namespace Kali

/-- Inserting a key that matches no existing entry appends it. -/
theorem indexMapInsert_append (m : List (Pattern × Expr)) (k : Pattern) (v : Expr)
    (h : ∀ p ∈ m, Pattern.beq p.1 k = false) :
    indexMapInsert m k v = m ++ [(k, v)] := by
  induction m with
  | nil => rfl
  | cons kv rest ih =>
    have hk : Pattern.beq kv.1 k = false := h kv (by simp)
    cases kv with
    | mk k' v' =>
      simp only [indexMapInsert, hk, Bool.false_eq_true, if_false]
      rw [ih fun p hp => h p (List.mem_cons_of_mem _ hp)]
      simp

/-- Folding `insert` over entries with pairwise-distinct keys, starting
from a map whose keys are disjoint from them, appends the entries in
order. -/
theorem collectBranchMap_aux :
    ∀ (l acc : List (Pattern × Expr)),
      (∀ p ∈ acc, ∀ q ∈ l, Pattern.beq p.1 q.1 = false) →
      l.Pairwise (fun p q => Pattern.beq p.1 q.1 = false) →
      List.foldl (fun m kv => indexMapInsert m kv.1 kv.2) acc l = acc ++ l := by
  intro l
  induction l with
  | nil => intro acc _ _; simp
  | cons kv rest ih =>
    intro acc hdisj hpair
    obtain ⟨hhead, htail⟩ := List.pairwise_cons.mp hpair
    rw [List.foldl_cons]
    rw [indexMapInsert_append acc kv.1 kv.2 fun p hp => hdisj p hp kv (by simp)]
    rw [ih (acc ++ [(kv.1, kv.2)]) ?_ htail]
    · simp
    · intro p hp q hq
      rcases List.mem_append.mp hp with h | h
      · exact hdisj p h q (List.mem_cons_of_mem _ hq)
      · rw [List.mem_singleton.mp h]
        exact hhead q hq

/-- C4 (amended): the branch map built by `Match::new` and by the parser's
`match_expr` lists one entry per expanded branch pattern, in source order,
*provided the expanded patterns are pairwise distinct*; a multi-pattern
branch expands into consecutive entries sharing its right-hand side; and a
parsed two-branch match yields its branches in source order.  (A branch
whose pattern repeats an earlier one is merged into the earlier entry —
see the counterexample — and the `Eraser`/engine rewriters collect
branches into a `std::collections::HashMap`, whose iteration order is
unspecified.) -/
theorem match_branches_source_order :
    (∀ bs : List (List Pattern × Expr),
      (expandBranches bs).Pairwise (fun p q => Pattern.beq p.1 q.1 = false) →
      matchNewBranches bs = expandBranches bs)
    ∧ (∀ (ps : List Pattern) (e : Expr),
      expandBranches [(ps, e)] = ps.map fun p => (p, e))
    ∧ pExpr 30 [.kwMatch, .ident "x", .kwWith, .blockStart, .litNatural 1, .arrow, .ident "a",
        .pipe, .litNatural 2, .arrow, .ident "b", .blockEnd]
      = some (.matchExpr (.ident "x")
          [(.literal (.natural 1), .ident "a"), (.literal (.natural 2), .ident "b")], []) := by
  refine ⟨?_, ?_, rfl⟩
  · intro bs h
    unfold matchNewBranches collectBranchMap
    rw [collectBranchMap_aux _ [] (by simp) h]
    simp
  · intro ps e
    simp [expandBranches]

/-- Witness for C4's amended theorem at a concrete branch list with
distinct patterns. -/
theorem match_branches_source_order_witness :
    (expandBranches [([Pattern.literal (.natural 1)], Expr.ident "a"),
        ([Pattern.literal (.natural 2)], Expr.ident "b")]).Pairwise
      (fun p q => Pattern.beq p.1 q.1 = false)
    ∧ matchNewBranches [([Pattern.literal (.natural 1)], Expr.ident "a"),
        ([Pattern.literal (.natural 2)], Expr.ident "b")]
      = [(Pattern.literal (.natural 1), Expr.ident "a"),
         (Pattern.literal (.natural 2), Expr.ident "b")] := by
  have h : (expandBranches [([Pattern.literal (.natural 1)], Expr.ident "a"),
      ([Pattern.literal (.natural 2)], Expr.ident "b")]).Pairwise
      (fun p q => Pattern.beq p.1 q.1 = false) := by
    simp [expandBranches, List.pairwise_cons]
    rfl
  exact ⟨h, match_branches_source_order.1 _ h⟩

/-- C4 counterexample: a match whose two branches carry equal patterns —
accepted by the parser — is collapsed by the branch map: iterating the
parsed `Match`'s branches yields *one* pattern where the source order has
two, the earlier branch's right-hand side having been replaced by the
later one. -/
theorem match_duplicate_patterns_collapse :
    pExpr 30 [.kwMatch, .ident "x", .kwWith, .blockStart, .pipe, .litNatural 1, .arrow,
        .ident "a", .pipe, .litNatural 1, .arrow, .ident "b", .blockEnd]
      = some (.matchExpr (.ident "x") [(.literal (.natural 1), .ident "b")], [])
    ∧ ((matchNewBranches [([.literal (.natural 1)], .ident "a"),
          ([.literal (.natural 1)], .ident "b")]).map Prod.fst
        ≠ (expandBranches [([.literal (.natural 1)], .ident "a"),
          ([.literal (.natural 1)], .ident "b")]).map Prod.fst) := by
  refine ⟨rfl, ?_⟩
  intro h
  simp [matchNewBranches, expandBranches, collectBranchMap, indexMapInsert, Pattern.beq] at h

/-- C6: operator precedence and associativity of the layered expression
parser are stable: for all identifier atoms `a`, `b`, `c`, the token
stream of `a + b * c` parses as `a + (b * c)`, `a :: b :: c` parses
right-associatively as `a :: (b :: c)`, and `a == b == c` parses
left-associatively as `(a == b) == c`.  (The pratt levels of the newer
parser in `kali-parse/src/lib.rs` lines 421–485 assign the same relative
strengths: `*` at `left(8)` over `+` at `left(7)`, `::` at `right(2)`,
`==` at `left(5)`.) -/
theorem operator_precedence_stable :
    (∀ a b c : String,
      pExpr 30 [.ident a, .opAdd, .ident b, .opMul, .ident c]
        = some (.binaryExpr (.ident a) .add (.binaryExpr (.ident b) .multiply (.ident c)), []))
    ∧ (∀ a b c : String,
      pExpr 30 [.ident a, .opCons, .ident b, .opCons, .ident c]
        = some (.binaryExpr (.ident a) .cons (.binaryExpr (.ident b) .cons (.ident c)), []))
    ∧ (∀ a b c : String,
      pExpr 30 [.ident a, .opEq, .ident b, .opEq, .ident c]
        = some (.binaryExpr (.binaryExpr (.ident a) .equal (.ident b)) .equal (.ident c), [])) :=
  ⟨fun _ _ _ => rfl, fun _ _ _ => rfl, fun _ _ _ => rfl⟩

/-- C5: the hand-written lexer is *not* balanced, and its own unit test
fails on it.  On `"\n\n"` it emits a `BlockStart` with no matching
`BlockEnd` and no flush at end of input; and on the unit test input
`"hello\n\tworld\n"` (test `block` in `kali-parse/src/lexer.rs`, which
expects `[hello, BlockStart, world, BlockEnd]`) it stops after `hello`,
because `end_block` consumes the newline at indentation 0 and returns
`None` without restoring, so `start_block` never sees a newline. -/
theorem lexer_blocks_unbalanced :
    lexAll "\n\n" = [.blockStart]
    ∧ (lexAll "\n\n").count LTok.blockStart = 1
    ∧ (lexAll "\n\n").count LTok.blockEnd = 0
    ∧ lexAll "hello\n\tworld\n" = [.identifier "hello"]
    ∧ lexAll "a\n\n\tb" = [.identifier "a", .blockStart, .identifier "b"] := by
  refine ⟨rfl, rfl, rfl, rfl, rfl⟩

end Kali
